import Mathlib

/-!
The children registry `TChildHolderBase` of wb-libwbmqtt-suggestion

A shallow embedding of `src/child_holder.hpp`, `src/child_holder_impl.hpp` and the
parts of `src/parent_holder_impl.hpp` they call, followed by topics, messages, the
delegation of a message to the children, the value of a node and its error state.
The methods of the latter group are declared in `src/message.hpp`,
`src/value_holder.hpp` and `src/hierarchy_member.hpp` without bodies; their
definitions here follow the specification and say so.
Then come the walk to the root of a hierarchy (`src/parent_holder.hpp`), the type
checkers of `src/control_info.hpp` and the control types of `src/control_types.hpp`
and `src/control_types.cpp`.

Modelling conventions

* An object lives at an address (`Addr`). A C++ pointer is `Ptr = Option Addr`,
  where `none` is `nullptr`. A pointer that the code dereferences without a test is
  taken as an `Addr`.
* A method is a function from the state before the call to an `Outcome`: either
  `returned` (state after the call, result) or `thrown` (state at the throw,
  message of the exception). The state at the throw keeps every assignment the
  method made before throwing.
* `std::unordered_map<std::string, TChild*>` is a list of entries, read through
  `find`, `count`, `assign` (for `m[k] = v`) and `erase`. Entries are visited in list
  order where the code iterates; the standard leaves that order open.
* `std::list<std::unique_ptr<TChild>>` is the list of the addresses it owns.
-/

namespace NWbMqtt

/-- Address of a live object. -/
abbrev Addr := Nat

/-- C++ pointer: `none` is `nullptr`. -/
abbrev Ptr := Option Addr

/-- The fields of a child object that the children holder reads or writes:
`const std::string Name` (hierarchy_member.hpp) and `TParent *Parent`
(parent_holder.hpp). -/
structure TChild where
  Name : String
  Parent : Ptr
deriving DecidableEq, Repr

/-- Method `TParentHolderBase::SetParent`: `this->Parent = newParent;` -/
def TChild.SetParent (self : TChild) (newParent : Ptr) : TChild :=
  { self with Parent := newParent }

/-- Method `TParentHolderBase::GetParent`: `return this->Parent;` -/
def TChild.GetParent (self : TChild) : Ptr :=
  self.Parent

/-- Container `std::unordered_map<std::string, TChild*>` as a list of (key, value) entries. -/
structure unordered_map where
  entries : List (String × Ptr)
deriving DecidableEq, Repr

namespace unordered_map

/-- First entry of a list whose key is `key`. -/
def findIn : List (String × Ptr) → String → Option (String × Ptr)
  | [], _ => none
  | e :: rest, key => if e.1 = key then some e else findIn rest key

/-- Call `m.find(key)`: the entry with that key, `none` for `m.end()`. -/
def find (m : unordered_map) (key : String) : Option (String × Ptr) :=
  findIn m.entries key

/-- Call `m.count(key)`: 1 when the key is present, 0 otherwise. -/
def count (m : unordered_map) (key : String) : Nat :=
  match m.find key with
  | some _ => 1
  | none => 0

/-- Assignment `m[key] = value`: overwrite the value of an entry with that key, insert a new entry
when there is none. -/
def assign (m : unordered_map) (key : String) (value : Ptr) : unordered_map :=
  match m.find key with
  | some _ => ⟨m.entries.map (fun e => if e.1 = key then (key, value) else e)⟩
  | none => ⟨m.entries ++ [(key, value)]⟩

/-- Call `m.erase(key)`: drop the entry with that key. -/
def erase (m : unordered_map) (key : String) : unordered_map :=
  ⟨m.entries.filter (fun e => e.1 ≠ key)⟩

/-- The keys of the map, in entry order. -/
def keys (m : unordered_map) : List String :=
  m.entries.map Prod.fst

end unordered_map

/-- The data members of `TChildHolderBase<TThis, TChild>`. -/
structure TChildHolderBase where
  Children : List Addr
  aliasesOfChildren : unordered_map
deriving DecidableEq, Repr

/-- Program state that the methods of one children holder act on: the address of the
holder itself (`this`), its data members, and the child objects in memory. -/
structure State where
  this_ : Addr
  holder : TChildHolderBase
  objects : Addr → TChild

/-- How a call ends: it returns a value, or it throws; both carry the state reached. -/
inductive Outcome (α : Type) where
  | returned (s : State) (value : α)
  | thrown (s : State) (what : String)

namespace Outcome

/-- State in which the call ended. -/
def state {α : Type} : Outcome α → State
  | returned s _ => s
  | thrown s _ => s

/-- Whether the call ended by an exception. -/
def isThrown {α : Type} : Outcome α → Bool
  | returned _ _ => false
  | thrown _ _ => true

/-- The returned value, `none` when the call threw. -/
def value? {α : Type} : Outcome α → Option α
  | returned _ v => some v
  | thrown _ _ => none

end Outcome

/-- Method `TChildHolderBase::CreateChildByName`, the default body:
`throw WBMQTT_EXCEPTION("You must override this method according to doc");` -/
def CreateChildByName (s : State) (_nameOfChild : String) : Outcome Addr :=
  .thrown s "You must override this method according to doc"

/-- Method `TChildHolderBase::AddAliase`:
```
if (aliasesOfChildren.count(newAliase) != 0)
    throw WBMQTT_EXCEPTION("Trying to add alias that already exist");
aliasesOfChildren[newAliase] = control;
```
-/
def AddAliase (s : State) (control : Ptr) (newAliase : String) : Outcome Unit :=
  if s.holder.aliasesOfChildren.count newAliase ≠ 0 then
    .thrown s "Trying to add alias that already exist"
  else
    .returned
      { s with holder :=
          { s.holder with
            aliasesOfChildren := s.holder.aliasesOfChildren.assign newAliase control } }
      ()

/-- Method `TChildHolderBase::AddChild`:
```
newChild->SetParent(static_cast<TThis*>(this));
Children.push_back(std::unique_ptr<TChild>(newChild));
AddAliase(newChild, newChild->Name);
return newChild;
```
-/
def AddChild (s : State) (newChild : Addr) : Outcome Addr :=
  let s1 : State :=
    { s with objects :=
        Function.update s.objects newChild ((s.objects newChild).SetParent (some s.this_)) }
  let s2 : State :=
    { s1 with holder := { s1.holder with Children := s1.holder.Children ++ [newChild] } }
  match AddAliase s2 (some newChild) (s2.objects newChild).Name with
  | .thrown s3 what => .thrown s3 what
  | .returned s3 _ => .returned s3 newChild

/-- Method `TChildHolderBase::RemoveChild(TChild *child)`:
```
Children.remove(child); // ???
std::vector<std::string> aliasesToDelete;
for (auto iter : aliasesOfChildren)
    if (iter.second == child)
        aliasesOfChildren.push_back(iter.first);
for (const std::string &alias : aliasesToDelete)
    aliasesOfChildren.erase(alias);
```
`Children.remove(child)` drops every element that holds the pointer `child`; the
destruction of the object a dropped `unique_ptr` owned is not part of the state.
The body of the first loop names `aliasesOfChildren`, not `aliasesToDelete`:
`std::unordered_map` has no `push_back`, and nothing is ever appended to
`aliasesToDelete`, so the first loop leaves both as they are and the second loop
runs over the empty vector. -/
def RemoveChild (s : State) (child : Ptr) : Outcome Unit :=
  let Children := s.holder.Children.filter (fun c => some c ≠ child)
  let aliasesToDelete : List String := []
  let aliasesToDelete :=
    s.holder.aliasesOfChildren.entries.foldl
      (fun toDelete iter => if iter.2 = child then toDelete else toDelete) aliasesToDelete
  let aliases :=
    aliasesToDelete.foldl (fun m aliase => m.erase aliase) s.holder.aliasesOfChildren
  .returned { s with holder := { Children := Children, aliasesOfChildren := aliases } } ()

/-- Method `TChildHolderBase::GetChild`:
```
auto iter = aliasesOfChildren.find(aliaseOfChild);
if (iter != aliasesOfChildren.end())
    return iter->second;
else
    return nullptr;
```
-/
def GetChild (s : State) (aliaseOfChild : String) : Outcome Ptr :=
  match s.holder.aliasesOfChildren.find aliaseOfChild with
  | some iter => .returned s iter.2
  | none => .returned s none

/-- Method `TChildHolderBase::GetChildForce`, with the virtual `CreateChildByName` of the
dynamic type as a parameter:
```
TChild* ret = GetChild(aliaseOfChild);
if (ret != nullptr)
    return ret;
TChild* newChild = CreateChildByName(aliaseOfChild);
AddChild(newChild);
return newChild;
```
-/
def GetChildForce (create : State → String → Outcome Addr) (s : State)
    (aliaseOfChild : String) : Outcome Ptr :=
  match GetChild s aliaseOfChild with
  | .thrown s1 what => .thrown s1 what
  | .returned s1 ret =>
    if ret ≠ none then
      .returned s1 ret
    else
      match create s1 aliaseOfChild with
      | .thrown s2 what => .thrown s2 what
      | .returned s2 newChild =>
        match AddChild s2 newChild with
        | .thrown s3 what => .thrown s3 what
        | .returned s3 _ => .returned s3 (some newChild)

/-- The holder right after `TChildHolderBase()`: no children, no aliases. -/
def emptyHolder : TChildHolderBase :=
  { Children := [], aliasesOfChildren := ⟨[]⟩ }

/-- A state for examples: the holder lives at address 100 and is empty; the object at
address `a` has the name `names a` and no parent yet. -/
def freshState (names : Addr → String) : State :=
  { this_ := 100, holder := emptyHolder, objects := fun a => { Name := names a, Parent := none } }

/-- Names of the objects used in the examples: the objects at addresses 1 and 2 are
both named "temp", the object at address 3 is named "#", every other one "bar". -/
def exampleNames : Addr → String :=
  fun a => if a = 1 then "temp" else if a = 2 then "temp" else if a = 3 then "#" else "bar"

/-- The example state after `AddChild` of the object at address 1 (named "temp"). -/
def stateWithTemp : State :=
  (AddChild (freshState exampleNames) 1).state

/-- The example state after `AddAliase(child at 4, "+")` on `stateWithTemp`: "temp"
names the child at address 1, "+" the child at address 4. -/
def stateWithPlus : State :=
  (AddAliase stateWithTemp (some 4) "+").state

/-- The example state after `AddAliase(GetChild("foo"), "bar")` on the empty holder:
`GetChild("foo")` is `nullptr` there, so "bar" is a key whose value is `nullptr`. -/
def stateWithNullAlias : State :=
  match GetChild (freshState exampleNames) "foo" with
  | .returned s ret => (AddAliase s ret "bar").state
  | .thrown s _ => s

/-- An override of `CreateChildByName` for the examples: it returns the object at
address 5 and changes nothing. -/
def createAt5 (s : State) (_nameOfChild : String) : Outcome Addr :=
  .returned s 5

/-- Method `TChildHolderBase::RemoveChild(const std::string &aliaseOfChild)`:
```
auto iter = aliasesOfChildren.find(aliaseOfChild);
if (iter != aliasesOfChildren.end())
    RemoveChild(iter->second);
else
    throw WBMQTT_EXCEPTION("Trying to remove a child with non-existing alias");
```
-/
def RemoveChildByAliase (s : State) (aliaseOfChild : String) : Outcome Unit :=
  match s.holder.aliasesOfChildren.find aliaseOfChild with
  | some iter => RemoveChild s iter.2
  | none => .thrown s "Trying to remove a child with non-existing alias"

/-- The state after `new TChildSubclass(...)` has built the object `obj` at the address
`newChild`. -/
def placeNew (s : State) (newChild : Addr) (obj : TChild) : State :=
  { s with objects := Function.update s.objects newChild obj }

/-- Method `TChildHolderBase::EmplaceChild`:
```
TChildSubclass *newChild = new TChildSubclass(static_cast<TThis*>(this), args...);
Children.push_back(std::unique_ptr<TChild>(newChild));
AddAliase(newChild, newChild->Name);
return newChild;
```
The address `new` returns is `newChild`; `construct` is the constructor of
`TChildSubclass` with `args...` bound: it takes the parent pointer it is handed to
the fields of the object it builds. -/
def EmplaceChild (s : State) (newChild : Addr) (construct : Ptr → TChild) :
    Outcome Addr :=
  let s1 : State := placeNew s newChild (construct (some s.this_))
  let s2 : State :=
    { s1 with holder := { s1.holder with Children := s1.holder.Children ++ [newChild] } }
  match AddAliase s2 (some newChild) (s2.objects newChild).Name with
  | .thrown s3 what => .thrown s3 what
  | .returned s3 _ => .returned s3 newChild

/-- A constructor that hands its parent argument to `TParentHolderBase(TParent *parent)`
(`Parent(parent)`, parent_holder_impl.hpp) and takes its name from its arguments. -/
def constructNamed (name : String) (parent : Ptr) : TChild :=
  { Name := name, Parent := parent }

/-- Method `TChildHolderBase::GetChildReference`:
```
return *GetChildForce();
```
The call hands no argument to `GetChildForce`, which is declared with one parameter
and no default. What that call computes is the parameter `GetChildForceNoArg`; the
body does not use `aliaseOfChild`. The reference returned is given by the pointer to
the object referred to. -/
def GetChildReference (GetChildForceNoArg : State → Outcome Ptr) (s : State)
    (_aliaseOfChild : String) : Outcome Ptr :=
  GetChildForceNoArg s

/-- Method `TChildHolderBase::operator[]`: `return GetChildReference(aliaseOfChild);` -/
def operatorIndex (GetChildForceNoArg : State → Outcome Ptr) (s : State)
    (aliaseOfChild : String) : Outcome Ptr :=
  GetChildReference GetChildForceNoArg s aliaseOfChild

/-- A caller adding the children `cs` one after the other with `AddChild`; it stops at
the first throw. -/
def AddChildren : State → List Addr → Outcome Unit
  | s, [] => .returned s ()
  | s, c :: cs =>
    match AddChild s c with
    | .thrown s1 what => .thrown s1 what
    | .returned s1 _ => AddChildren s1 cs

/-! Topics and messages. `class TTopic` has an elided body in message.hpp and the
methods of `THierarchyMemberBase` are declared without bodies in hierarchy_member.hpp;
what they do is taken from the specification. -/

/-- Modelled from the spec: the body of `class TTopic` (message.hpp) is missing. A topic
is the ordered sequence of its segments (section 3, "Topic"). -/
abbrev TTopic := List String

/-- Modelled from the spec: the reserved characters of a topic segment (section 3); the
body of `class TTopic` is missing. -/
def reservedChars : List Char := ['+', '#', '$', '/']

/-- Modelled from the spec: a segment is a non-empty string without reserved characters,
or exactly the wildcard token "+" or "#" (section 3); the body of `class TTopic` is
missing. -/
def validSegment (seg : String) : Bool :=
  decide (seg = "+") || decide (seg = "#") ||
    (decide (seg.data ≠ []) && seg.data.all (fun c => decide (c ∉ reservedChars)))

/-- Modelled from the spec: every segment of a topic is valid and "#" is legal only as
the final segment (section 3); the body of `class TTopic` is missing. -/
def validTopic (segments : TTopic) : Bool :=
  segments.all validSegment && decide ("#" ∉ segments.dropLast)

/-- Modelled from the spec: the cut of a character sequence at every '/', the separator
of topic segments (section 3); the body of `class TTopic` is missing. -/
def splitOnSlash : List Char → List (List Char)
  | [] => [[]]
  | c :: cs =>
    if c = '/' then [] :: splitOnSlash cs
    else
      match splitOnSlash cs with
      | [] => [[c]]
      | seg :: rest => (c :: seg) :: rest

/-- Modelled from the spec: the character sequences with '/' put between them (section
3, "joining segments with `/`"); the body of `class TTopic` is missing. -/
def joinWithSlash : List (List Char) → List Char
  | [] => []
  | [seg] => seg
  | seg :: next :: rest => seg ++ '/' :: joinWithSlash (next :: rest)

/-- Modelled from the spec: `split` of section 8, the segments of a raw topic string; the
empty string is the topic without segments. The body of `class TTopic` is missing. -/
def TTopic.split (raw : String) : TTopic :=
  if raw.data = [] then [] else (splitOnSlash raw.data).map String.mk

/-- Modelled from the spec: `join` of section 8, the segments joined with "/". The body
of `class TTopic` is missing. -/
def TTopic.join (segments : TTopic) : String :=
  String.mk (joinWithSlash (segments.map String.data))

/-- Modelled from the spec: `parse(raw) -> Topic | InvalidTopic` of section 4.1; `none`
is `InvalidTopic`. The body of `class TTopic` is missing. -/
def TTopic.parse (raw : String) : Option TTopic :=
  if validTopic (TTopic.split raw) then some (TTopic.split raw) else none

/-- Modelled from the spec: `firstSegment() -> (head, rest)` of section 4.1; `none` is
`EmptyTopic`. The body of `class TTopic` is missing. -/
def TTopic.firstSegment : TTopic → Option (String × TTopic)
  | [] => none
  | head :: rest => some (head, rest)

/-- Modelled from the spec: `matches(pattern, concrete)` of section 4.1: "+" matches
exactly one non-empty segment, "#" in final position matches zero or more remaining
segments, any other segment must match literally. The body of `class TTopic` is
missing. -/
def TTopic.matchesPattern : TTopic → TTopic → Bool
  | [], [] => true
  | [], _ :: _ => false
  | p :: ps, [] => decide (p = "#") && decide (ps = [])
  | p :: ps, c :: cs =>
    if p = "#" then decide (ps = [])
    else if p = "+" then decide (c ≠ "") && TTopic.matchesPattern ps cs
    else decide (p = c) && TTopic.matchesPattern ps cs

/-- Modelled from the spec: `matches(parse(pattern), parse(concrete))` as written in
section 8; `none` when one of the two strings is not a topic. -/
def TTopic.matchesRaw (pattern concrete : String) : Option Bool :=
  match TTopic.parse pattern, TTopic.parse concrete with
  | some p, some c => some (TTopic.matchesPattern p c)
  | _, _ => none

/-- Types of messages, `enum TMessageType` of message.hpp. -/
inductive TMessageType where
  | DOWN_VALUE_CHANGE
  | UP_PUBLISH
  | UP_REMOVE
  | UP_SUBSCRIBE
  | UP_UNSUBSCRIBE
deriving DecidableEq, Repr

/-- Data members of `class TMessage` (message.hpp): `Topic`, `Type` (here
`MessageType`) and `Value`; the topic is held as its segments. -/
structure TMessage where
  Topic : TTopic
  MessageType : TMessageType
  Value : String
deriving DecidableEq, Repr

/-- Modelled from the spec: `TMessage::CreatePublishMessage(topic, value)` is declared in
message.hpp without a body; it builds the upward Publish message of section 3. -/
def TMessage.CreatePublishMessage (topic : TTopic) (value : String) : TMessage :=
  { Topic := topic, MessageType := TMessageType.UP_PUBLISH, Value := value }

/-- The child a holder has under an alias: the result of `GetChild`. -/
def childUnder (s : State) (aliase : String) : Ptr :=
  match GetChild s aliase with
  | .returned _ child => child
  | .thrown _ _ => none

/-- Modelled from the spec: the children a message is delegated to and the message each
one receives (section 4.4, step 2); `THierarchyMemberBase::TryDelegateMessageToChildren`
is declared in hierarchy_member.hpp without a body. The topic is split into
`(head, rest)`; the child under the exact alias `head` and the child under "+" receive
the message with topic `rest`, the child under "#" receives it with the whole remaining
topic; a topic without segments (`EmptyTopic`) is delegated to nobody. -/
def delegationTargets (s : State) (message : TMessage) : List (Addr × TMessage) :=
  match TTopic.firstSegment message.Topic with
  | none => []
  | some (head, rest) =>
    (childUnder s head).toList.map (fun child => (child, { message with Topic := rest }))
      ++ (childUnder s "+").toList.map (fun child => (child, { message with Topic := rest }))
      ++ (childUnder s "#").toList.map (fun child => (child, message))

/-- Modelled from the spec: the loop of the delegation (section 4.4, step 2). `process`
is `ProcessMessageFromParent` of the children: from the state `w` of the children, the
child and the message to the state after the call and whether the child reported
acceptance. The flag `accepted` is set once a child has reported acceptance. -/
def delegateLoop {σ : Type} (process : σ → Addr → TMessage → σ × Bool) :
    σ → List (Addr × TMessage) → Bool → σ × Bool
  | w, [], accepted => (w, accepted)
  | w, (child, message) :: rest, accepted =>
    delegateLoop process (process w child message).1 rest
      (accepted || (process w child message).2)

/-- Modelled from the spec: `THierarchyMemberBase::TryDelegateMessageToChildren`
(declared in hierarchy_member.hpp without a body), section 4.4 step 2: the message is
handed to every matching child, the result is `true` (Delegated, MESSAGE_ACCEPTED) iff
a child reported acceptance. -/
def TryDelegateMessageToChildren {σ : Type} (process : σ → Addr → TMessage → σ × Bool)
    (w : σ) (s : State) (message : TMessage) : σ × Bool :=
  delegateLoop process w (delegationTargets s message) false

/-- The answers of the children in the order they are asked during a delegation over
`targets`, starting from the state `w` of the children. -/
def delegateReports {σ : Type} (process : σ → Addr → TMessage → σ × Bool) :
    σ → List (Addr × TMessage) → List Bool
  | _, [] => []
  | w, (child, message) :: rest =>
    (process w child message).2 :: delegateReports process (process w child message).1 rest

/-- A `ProcessMessageFromParent` for the examples: the state of the children is the list
of the deliveries made so far, every child rejects. -/
def recordDelivery (log : List (Addr × TMessage)) (child : Addr) (message : TMessage) :
    List (Addr × TMessage) × Bool :=
  (log ++ [(child, message)], false)

/-- A `ProcessMessageFromParent` that also keeps the list of the calls made: the state
is the state of `process` together with the deliveries so far; a call appends the child
and the message it is handed, and does to the first component and answers what
`process` does and answers. -/
def withDeliveryLog {σ : Type} (process : σ → Addr → TMessage → σ × Bool)
    (w : σ × List (Addr × TMessage)) (child : Addr) (message : TMessage) :
    (σ × List (Addr × TMessage)) × Bool :=
  (((process w.1 child message).1, w.2 ++ [(child, message)]), (process w.1 child message).2)

/-- A `ProcessMessageFromParent` for the examples: every child accepts. -/
def everyChildAccepts (w : Unit) (_child : Addr) (_message : TMessage) : Unit × Bool :=
  (w, true)

/-- A `ProcessMessageFromParent` for the examples: nothing is recorded, the child at
address 4 accepts and every other child rejects. -/
def onlyChild4Accepts (w : Unit) (child : Addr) (_message : TMessage) : Unit × Bool :=
  (w, decide (child = 4))

/-- The example state with the children at 6, 4 and 3 under the aliases "x", "+" and
"#". -/
def stateWithWildcards : State :=
  (AddAliase (AddAliase (AddAliase (freshState exampleNames) (some 6) "x").state
    (some 4) "+").state (some 3) "#").state

/-- The value of a node (`std::string Value` of `TValueHolder`, value_holder.hpp)
together with the upward messages the node has handed to `MessageToParent`, oldest
first. -/
structure TValueHolder where
  Value : String
  sentUp : List TMessage
deriving DecidableEq, Repr

/-- Modelled from the spec: `THierarchyMemberBase::OnSetValue` is declared in
hierarchy_member.hpp without a body. The default change hook emits an upward Publish
message with the new value iff the old and the new value differ (section 4.3). -/
def OnSetValue (self : TValueHolder) (oldValue newValue : String) : TValueHolder :=
  if oldValue ≠ newValue then
    { self with sentUp := self.sentUp ++ [TMessage.CreatePublishMessage [] newValue] }
  else
    self

/-- Modelled from the spec: `TValueHolder::SetValue` is declared in value_holder.hpp
without a body (`= 0`). `set(newValue)` keeps the old value, stores `newValue`, then
invokes the change hook of the node with `(old, newValue)` (section 4.3); `hook` is the
virtual `OnSetValue` of the dynamic type. -/
def SetValue (hook : TValueHolder → String → String → TValueHolder) (self : TValueHolder)
    (newValue : String) : TValueHolder :=
  let oldValue := self.Value
  let stored : TValueHolder := { self with Value := newValue }
  hook stored oldValue newValue

/-- A change hook for the examples: it emits nothing and writes the two values it was
called with, as "old>new", to the value. -/
def hookShowingArguments (self : TValueHolder) (oldValue newValue : String) :
    TValueHolder :=
  { self with Value := oldValue ++ ">" ++ newValue }

/-- Modelled from the spec: the error state of a hierarchy node and its children
(section 3, "HierarchyNode": `name`, `ownError`, `inheritedParentError`, `children`);
hierarchy_member.hpp declares the fields `Error` and `ParentError` and no method body
that writes them. -/
inductive THierarchyNode where
  | mk (name : String) (ownError : Bool) (inheritedParentError : Bool)
      (children : List THierarchyNode)
deriving Repr

namespace THierarchyNode

/-- The flag `ownError` of a node. -/
def ownError : THierarchyNode → Bool
  | mk _ own _ _ => own

/-- The flag `inheritedParentError` of a node. -/
def inheritedParentError : THierarchyNode → Bool
  | mk _ _ inherited _ => inherited

/-- The children of a node. -/
def children : THierarchyNode → List THierarchyNode
  | mk _ _ _ cs => cs

/-- Modelled from the spec: a node is healthy iff both `ownError = false` and
`inheritedParentError = false` (section 4.5). -/
def healthy (node : THierarchyNode) : Bool :=
  !node.ownError && !node.inheritedParentError

/-- Modelled from the spec: `THierarchyMemberBase::SetError`, declared in
hierarchy_member.hpp without a body: the node sets its own error (section 4.5); the
emission toward the transport is not part of this state. -/
def SetError : THierarchyNode → THierarchyNode
  | mk name _ inherited cs => mk name true inherited cs

/-- Modelled from the spec: `THierarchyMemberBase::CleanError`, declared in
hierarchy_member.hpp without a body: it reverses `SetError`, the node clears its own
error (section 4.5, section 8 "own-error only"). -/
def CleanError : THierarchyNode → THierarchyNode
  | mk name _ inherited cs => mk name false inherited cs

mutual

/-- Modelled from the spec: `THierarchyMemberBase::SetErrorRecursive(errorMessage,
isParentError)`, declared in hierarchy_member.hpp without a body: the node sets its own
error, or its inherited flag when `isParentError`, then every child is set with the flag
marking the error as inherited, recursively (section 4.5). -/
def SetErrorRecursive (isParentError : Bool) : THierarchyNode → THierarchyNode
  | mk name own inherited cs =>
    mk name (if isParentError then own else true) (if isParentError then true else inherited)
      (SetErrorRecursiveAll cs)

/-- The recursive call of `SetErrorRecursive` on every child, `isParentError = true`. -/
def SetErrorRecursiveAll : List THierarchyNode → List THierarchyNode
  | [] => []
  | c :: cs => SetErrorRecursive true c :: SetErrorRecursiveAll cs

end

mutual

/-- Modelled from the spec: `THierarchyMemberBase::CleanErrorRecursive(isParentError)`,
declared in hierarchy_member.hpp without a body: it mirrors `SetErrorRecursive` for
clearing; below the node only the inherited flag is touched (section 4.5). -/
def CleanErrorRecursive (isParentError : Bool) : THierarchyNode → THierarchyNode
  | mk name own inherited cs =>
    mk name (if isParentError then own else false)
      (if isParentError then false else inherited) (CleanErrorRecursiveAll cs)

/-- The recursive call of `CleanErrorRecursive` on every child, `isParentError = true`. -/
def CleanErrorRecursiveAll : List THierarchyNode → List THierarchyNode
  | [] => []
  | c :: cs => CleanErrorRecursive true c :: CleanErrorRecursiveAll cs

end

/-- The `k`-th child of a node, `none` when there is none. -/
def child? (node : THierarchyNode) (k : Nat) : Option THierarchyNode :=
  node.children.get? k

/-- Apply `f` to the `k`-th element of a list. -/
def applyAt (f : THierarchyNode → THierarchyNode) : Nat → List THierarchyNode →
    List THierarchyNode
  | _, [] => []
  | 0, c :: cs => f c :: cs
  | k + 1, c :: cs => c :: applyAt f k cs

/-- A call of the method `f` directly on the `k`-th child of `node`. -/
def onChild (k : Nat) (f : THierarchyNode → THierarchyNode) : THierarchyNode →
    THierarchyNode
  | mk name own inherited cs => mk name own inherited (applyAt f k cs)

/-- A tree for the examples: a parent with two children, the second of which has set an
error of its own and has a child. -/
def exampleTree : THierarchyNode :=
  mk "parent" false false
    [mk "a" false false [], mk "b" true false [mk "b1" false false []]]

end THierarchyNode

/-! The root of a hierarchy (parent_holder.hpp, parent_holder_impl.hpp) and the type
checkers of control_info.hpp. A C++ type is a value of a type with decidable equality;
`std::is_same` is that equality. -/

/-- Function `GetRootOfParentHolder`, the overload for a degenerate hierarchy
(`T::TParent` is `T`):
```
while (it->Parent != nullptr && it->Parent != it)
    it = it->Parent;
return it;
```
The argument `fuel` bounds the number of times the loop body runs; `none` says the
bound was reached with the loop still running. -/
def GetRootOfParentHolder (objects : Addr → TChild) : Nat → Addr → Option Addr
  | fuel, it =>
    match (objects it).Parent with
    | none => some it
    | some parent =>
      if parent = it then some it
      else
        match fuel with
        | 0 => none
        | fuel + 1 => GetRootOfParentHolder objects fuel parent

/-- The node reached from `it` by `k` applications of `GetParent`; `none` when a null
parent is met before. -/
def GetParentTimes (objects : Addr → TChild) : Nat → Addr → Option Addr
  | 0, it => some it
  | k + 1, it =>
    match (objects it).GetParent with
    | none => none
    | some parent => GetParentTimes objects k parent

/-- A node at which the walk to the root stops: its parent is null or is the node
itself. -/
def isTopOfChain (objects : Addr → TChild) (it : Addr) : Prop :=
  (objects it).GetParent = none ∨ (objects it).GetParent = some it

/-- Objects for the examples: the parent of the node at address `a + 1` is the node at
`a` for `a < 3`, the node at 0 has no parent, the node at 10 is its own parent and the
parent of the node at 11, every other node has no parent. -/
def exampleChain (it : Addr) : TChild :=
  { Name := "node",
    Parent :=
      if it = 1 then some 0 else if it = 2 then some 1 else if it = 3 then some 2
      else if it = 10 then some 10 else if it = 11 then some 10 else none }

/-- What naming a class template specialisation gives: the member `type`, or no type
because the program is ill-formed, or nothing yet because the depth allowed for the
instantiations was reached. -/
inductive Instantiation (α : Type) where
  | type (T : α)
  | illFormed
  | depthReached
deriving DecidableEq, Repr

/-- Template `get_root_type<T, TParent = typename T::TParent>` (parent_holder.hpp):
```
struct get_root_type : std::conditional<
    std::is_same<TArgNoChildOrParent, TParent>::value,
    T,
    typename get_root_type<TParent>::type> {};
template <typename T> struct get_root_type<T, T> { typedef T type; };
template <> struct get_root_type<TArgNoChildOrParent, TArgNoChildOrParent> {
    typedef TArgNoChildOrParent type; };
```
The member typedef `TParent` of every type is the parameter `TParentOf`, `none` for a
type that declares no such member: the default argument `typename T::TParent` then
names no type and `get_root_type<T>` is ill-formed. The primary template names
`get_root_type<TParent>::type` as an argument of `std::conditional`, so it is
instantiated whichever way the condition goes. The argument `fuel` bounds the depth of
the instantiations. -/
def get_root_type {α : Type} [DecidableEq α] (TArgNoChildOrParent : α)
    (TParentOf : α → Option α) : Nat → α → Instantiation α
  | fuel, T =>
    match TParentOf T with
    | none => .illFormed
    | some TParent =>
      if T = TArgNoChildOrParent ∧ TParent = TArgNoChildOrParent then
        .type TArgNoChildOrParent
      else if TParent = T then .type T
      else
        match fuel with
        | 0 => .depthReached
        | fuel + 1 =>
          match get_root_type TArgNoChildOrParent TParentOf fuel TParent with
          | .type root => if TArgNoChildOrParent = TParent then .type T else .type root
          | .illFormed => .illFormed
          | .depthReached => .depthReached

/-- The types of the two hierarchies named in hierarchy_member.hpp. -/
inductive HierarchyType where
  | TArgNoChildOrParent
  | TDriver
  | TDevice
  | TControl
  | TNode
deriving DecidableEq, Repr

/-- The member typedef `TParent` of the types of the two hierarchies: `TControl` in
`TDevice` in `TDriver`, whose parent type is `TArgNoChildOrParent`; `TNode` in `TNode`.
The class `TArgNoChildOrParent` has no member: arguments.hpp declares
`class TArgNoChildOrParent {};`. -/
def HierarchyType.TParent : HierarchyType → Option HierarchyType
  | .TArgNoChildOrParent => none
  | .TDriver => some .TArgNoChildOrParent
  | .TDevice => some .TDriver
  | .TControl => some .TDevice
  | .TNode => some .TNode

/-- The member typedefs of the prototype that the comment closing hierarchy_member.hpp
keeps, where `struct TArgNoChildOrParent` declares
`typedef TArgNoChildOrParent TParent;`; the other types as in `HierarchyType.TParent`. -/
def HierarchyType.TParentOfPrototype : HierarchyType → Option HierarchyType
  | .TArgNoChildOrParent => some .TArgNoChildOrParent
  | T => HierarchyType.TParent T

/-- Template `is_one_of<T1, TArgs...>` (control_info.hpp): `std::false_type` for the
empty list; for `T2, TArgs...` it is `std::true_type` when `std::is_same<T1, T2>`,
`is_one_of<T1, TArgs...>` otherwise. -/
def is_one_of {α : Type} [DecidableEq α] (T1 : α) : List α → Bool
  | [] => false
  | T2 :: TArgs => if T1 = T2 then true else is_one_of T1 TArgs

/-- Template `all_different<TArgs...>` (control_info.hpp): `std::true_type` for the
empty list; for `T1, TArgs...` it is `std::false_type` when `is_one_of<T1, TArgs...>`,
`all_different<TArgs...>` otherwise. -/
def all_different {α : Type} [DecidableEq α] : List α → Bool
  | [] => true
  | T1 :: TArgs => if is_one_of T1 TArgs then false else all_different TArgs

/-- The C++ types that the tests `test_is_one_of` and `test_all_different` use. -/
inductive CppType where
  | int
  | float
  | double
  | bool
  | char
deriving DecidableEq, Repr

/-! Control types (control_types.hpp, control_types.cpp). A `std::string` is a `String`
whose characters are its bytes; an `int` is an `Int` between `INT_MIN` and `INT_MAX`. -/

/-- The data member of `TControlType::TRange`: `int Maximum`. -/
structure TRange where
  Maximum : Int
deriving DecidableEq, Repr

/-- Constructor `TControlType::TRange::TRange(int maximum)`:
```
Maximum(maximum)
{
    if (maximum <= 1)
        throw std::invalid_argument("maximum must be greater then 1");
}
```
-/
def TRange.construct (maximum : Int) : Except String TRange :=
  if maximum ≤ 1 then .error "maximum must be greater then 1"
  else .ok { Maximum := maximum }

/-- Function `IntegerToString` of control_types.cpp: `snprintf(buffer, sizeof(buffer),
"%d", value)` into a buffer of 12 characters, which holds every `int`. -/
def IntegerToString (value : Int) : String :=
  toString value

/-- The control types whose `PublishMetaInfo` and `DeleteMetaInfo` differ: the base
`TControlType` (the types that `TControlTypeAutocreate` generates inherit its two
methods), `TRange` and `TGeneric`, each with the data members the two methods read. -/
inductive TControlType where
  | base (MetaType : String)
  | TRange (MetaType : String) (Maximum : Int)
  | TGeneric (MetaType : String) (Units : String)
deriving DecidableEq, Repr

/-- Method `PublishMetaInfo` of `TControlType`, `TRange` and `TGeneric`
(control_types.cpp): `publisher("/meta/type", MetaType);` followed for `TRange` by
`publisher("/meta/max", IntegerToString(Maximum));` and for `TGeneric` by
`publisher("/meta/units", Units);`. A call of `publisher` takes the state `w` of the
caller to a new state. -/
def TControlType.PublishMetaInfo {σ : Type} (self : TControlType)
    (publisher : String → String → σ → σ) (w : σ) : σ :=
  match self with
  | .base MetaType => publisher "/meta/type" MetaType w
  | .TRange MetaType Maximum =>
    publisher "/meta/max" (IntegerToString Maximum) (publisher "/meta/type" MetaType w)
  | .TGeneric MetaType Units =>
    publisher "/meta/units" Units (publisher "/meta/type" MetaType w)

/-- Method `DeleteMetaInfo` of `TControlType`, `TRange` and `TGeneric`
(control_types.cpp): `deleter("/meta/type");` followed for `TRange` by
`deleter("/meta/max");` and for `TGeneric` by `deleter("/meta/units");`. -/
def TControlType.DeleteMetaInfo {σ : Type} (self : TControlType)
    (deleter : String → σ → σ) (w : σ) : σ :=
  match self with
  | .base _ => deleter "/meta/type" w
  | .TRange _ _ => deleter "/meta/max" (deleter "/meta/type" w)
  | .TGeneric _ _ => deleter "/meta/units" (deleter "/meta/type" w)

/-- A publisher that appends the topic and the value it is called with to a list. -/
def recordPublish (relativeTopic value : String) (log : List (String × String)) :
    List (String × String) :=
  log ++ [(relativeTopic, value)]

/-- A deleter that appends the topic it is called with to a list. -/
def recordDelete (relativeTopic : String) (log : List String) : List String :=
  log ++ [relativeTopic]

/-- The result `MESSAGE_REJECTED`, which control.hpp and hierarchy_member.hpp name and
no file under src declares. -/
def MESSAGE_REJECTED : Bool := false

/-- Method `TControlBase::TryDelegateMessageToChildren` (control.hpp):
```
virtual void TryDelegateMessageToChildren(const TMessage &message) override
    { return MESSAGE_REJECTED; }
```
The state `w` is whatever the handling of a message may change; the body leaves it as
it is. -/
def TControlBase.TryDelegateMessageToChildren {σ : Type} (w : σ) (_message : TMessage) :
    σ × Bool :=
  (w, MESSAGE_REJECTED)

/-- Modelled from the spec: `THierarchyMemberBase::ProcessMessageFromParent`, declared
in hierarchy_member.hpp without a body ("1) Try to delegate message to children.
2) Try to use own handlers"). Section 4.4: the node delegates; a message that no child
accepted goes to ApplyingLocal, the own hooks of the node; the result is rejected iff
neither delegation nor local application consumed the message. The state chart of
section 4.4 also leads from Delegated to ApplyingLocal while step 1 names only the
undelegated case: `localAfterDelegated` says whether a delegated message is applied
locally as well. `delegate` is the virtual `TryDelegateMessageToChildren` and
`applyLocal` stands for the own hooks (`OnValueChange`, `OnSubscribe`). -/
def ProcessMessageFromParent {σ : Type} (localAfterDelegated : Bool)
    (delegate : σ → TMessage → σ × Bool) (applyLocal : σ → TMessage → σ × Bool)
    (w : σ) (message : TMessage) : σ × Bool :=
  let delegated := delegate w message
  if delegated.2 && !localAfterDelegated then delegated
  else
    let applied := applyLocal delegated.1 message
    (applied.1, delegated.2 || applied.2)

/-! Lemmas on the map operations. -/

theorem unordered_map.findIn_eq_none_iff (l : List (String × Ptr)) (key : String) :
    unordered_map.findIn l key = none ↔ key ∉ l.map Prod.fst := by
  induction l with
  | nil => simp [unordered_map.findIn]
  | cons e rest ih =>
    by_cases h : e.1 = key
    · simp [unordered_map.findIn, h]
    · have h2 : ¬ key = e.1 := fun h3 => h h3.symm
      simp [unordered_map.findIn, h, h2, ih]

theorem unordered_map.findIn_some_mem (l : List (String × Ptr)) (key : String)
    (e : String × Ptr) (h : unordered_map.findIn l key = some e) : e ∈ l ∧ e.1 = key := by
  induction l with
  | nil => simp [unordered_map.findIn] at h
  | cons x rest ih =>
    by_cases hx : x.1 = key
    · simp [unordered_map.findIn, hx] at h
      subst h
      exact ⟨List.mem_cons_self _ _, hx⟩
    · simp [unordered_map.findIn, hx] at h
      exact ⟨List.mem_cons_of_mem _ (ih h).1, (ih h).2⟩

theorem unordered_map.findIn_of_mem_nodup (l : List (String × Ptr)) (key : String) (v : Ptr)
    (hnd : (l.map Prod.fst).Nodup) (hmem : (key, v) ∈ l) :
    unordered_map.findIn l key = some (key, v) := by
  induction l with
  | nil => simp at hmem
  | cons x rest ih =>
    simp only [List.map_cons, List.nodup_cons] at hnd
    rcases List.mem_cons.mp hmem with hx | hx
    · subst hx
      simp [unordered_map.findIn]
    · have hne : x.1 ≠ key := by
        intro hk
        apply hnd.1
        rw [hk]
        exact List.mem_map.mpr ⟨(key, v), hx, rfl⟩
      simp [unordered_map.findIn, hne, ih hnd.2 hx]

theorem unordered_map.findIn_append_new (l : List (String × Ptr)) (key : String) (v : Ptr)
    (h : unordered_map.findIn l key = none) :
    unordered_map.findIn (l ++ [(key, v)]) key = some (key, v) := by
  induction l with
  | nil => simp [unordered_map.findIn]
  | cons x rest ih =>
    by_cases hx : x.1 = key
    · simp [unordered_map.findIn, hx] at h
    · simp [unordered_map.findIn, hx] at h
      simp [unordered_map.findIn, hx, ih h]

theorem unordered_map.findIn_append_other (l : List (String × Ptr)) (key other : String)
    (v : Ptr) (h : other ≠ key) :
    unordered_map.findIn (l ++ [(key, v)]) other = unordered_map.findIn l other := by
  induction l with
  | nil =>
    have h2 : ¬ key = other := fun h3 => h h3.symm
    simp [unordered_map.findIn, h2]
  | cons x rest ih =>
    by_cases hx : x.1 = other
    · simp [unordered_map.findIn, hx]
    · simp [unordered_map.findIn, hx, ih]

theorem unordered_map.findIn_map_same (l : List (String × Ptr)) (key : String) (v : Ptr)
    (h : unordered_map.findIn l key ≠ none) :
    unordered_map.findIn (l.map (fun e => if e.1 = key then (key, v) else e)) key
      = some (key, v) := by
  induction l with
  | nil => simp [unordered_map.findIn] at h
  | cons x rest ih =>
    by_cases hx : x.1 = key
    · simp [unordered_map.findIn, hx]
    · simp [unordered_map.findIn, hx] at h
      simp [unordered_map.findIn, hx, ih h]

theorem unordered_map.findIn_map_other (l : List (String × Ptr)) (key other : String)
    (v : Ptr) (h : other ≠ key) :
    unordered_map.findIn (l.map (fun e => if e.1 = key then (key, v) else e)) other
      = unordered_map.findIn l other := by
  induction l with
  | nil => simp [unordered_map.findIn]
  | cons x rest ih =>
    have h2 : ¬ key = other := fun h3 => h h3.symm
    by_cases hx : x.1 = key
    · have hx2 : ¬ x.1 = other := by rw [hx]; exact h2
      simp [unordered_map.findIn, hx, hx2, h2, ih]
    · by_cases hy : x.1 = other
      · simp [unordered_map.findIn, hx, hy]
        simp [h, hy]
      · simp [unordered_map.findIn, hx, hy, ih]

theorem unordered_map.find_assign_same (m : unordered_map) (key : String) (v : Ptr) :
    (m.assign key v).find key = some (key, v) := by
  unfold unordered_map.assign
  cases h : m.find key with
  | none => exact unordered_map.findIn_append_new m.entries key v h
  | some e =>
    apply unordered_map.findIn_map_same
    unfold unordered_map.find at h
    rw [h]
    simp

theorem unordered_map.find_assign_other (m : unordered_map) (key other : String) (v : Ptr)
    (h : other ≠ key) : (m.assign key v).find other = m.find other := by
  unfold unordered_map.assign
  cases m.find key with
  | none => exact unordered_map.findIn_append_other m.entries key other v h
  | some e => exact unordered_map.findIn_map_other m.entries key other v h

theorem unordered_map.count_eq_zero_iff (m : unordered_map) (key : String) :
    m.count key = 0 ↔ key ∉ m.keys := by
  unfold unordered_map.count unordered_map.keys
  rw [← unordered_map.findIn_eq_none_iff]
  unfold unordered_map.find
  cases unordered_map.findIn m.entries key <;> simp

/-! What the methods compute, case by case. -/

theorem AddAliase_of_key (s : State) (control : Ptr) (newAliase : String)
    (h : newAliase ∈ s.holder.aliasesOfChildren.keys) :
    AddAliase s control newAliase = .thrown s "Trying to add alias that already exist" := by
  have hc : s.holder.aliasesOfChildren.count newAliase ≠ 0 := by
    rw [Ne, unordered_map.count_eq_zero_iff]
    exact fun hn => hn h
  simp [AddAliase, hc]

theorem AddAliase_of_not_key (s : State) (control : Ptr) (newAliase : String)
    (h : newAliase ∉ s.holder.aliasesOfChildren.keys) :
    AddAliase s control newAliase =
      .returned
        { this_ := s.this_,
          holder :=
            { Children := s.holder.Children,
              aliasesOfChildren := s.holder.aliasesOfChildren.assign newAliase control },
          objects := s.objects }
        () := by
  have hc : s.holder.aliasesOfChildren.count newAliase = 0 :=
    (unordered_map.count_eq_zero_iff _ _).mpr h
  simp [AddAliase, hc]

theorem AddChild_of_key (s : State) (newChild : Addr)
    (h : (s.objects newChild).Name ∈ s.holder.aliasesOfChildren.keys) :
    AddChild s newChild =
      .thrown
        { this_ := s.this_,
          holder :=
            { Children := s.holder.Children ++ [newChild],
              aliasesOfChildren := s.holder.aliasesOfChildren },
          objects :=
            Function.update s.objects newChild
              ((s.objects newChild).SetParent (some s.this_)) }
        "Trying to add alias that already exist" := by
  unfold AddChild
  simp only [Function.update_same, TChild.SetParent]
  rw [AddAliase_of_key
    ({ this_ := s.this_,
       holder :=
         { Children := s.holder.Children ++ [newChild],
           aliasesOfChildren := s.holder.aliasesOfChildren },
       objects :=
         Function.update s.objects newChild
           { Name := (s.objects newChild).Name, Parent := some s.this_ } } : State)
    (some newChild) (s.objects newChild).Name h]

theorem AddChild_of_not_key (s : State) (newChild : Addr)
    (h : (s.objects newChild).Name ∉ s.holder.aliasesOfChildren.keys) :
    AddChild s newChild =
      .returned
        { this_ := s.this_,
          holder :=
            { Children := s.holder.Children ++ [newChild],
              aliasesOfChildren :=
                s.holder.aliasesOfChildren.assign (s.objects newChild).Name (some newChild) },
          objects :=
            Function.update s.objects newChild
              ((s.objects newChild).SetParent (some s.this_)) }
        newChild := by
  unfold AddChild
  simp only [Function.update_same, TChild.SetParent]
  rw [AddAliase_of_not_key
    ({ this_ := s.this_,
       holder :=
         { Children := s.holder.Children ++ [newChild],
           aliasesOfChildren := s.holder.aliasesOfChildren },
       objects :=
         Function.update s.objects newChild
           { Name := (s.objects newChild).Name, Parent := some s.this_ } } : State)
    (some newChild) (s.objects newChild).Name h]

theorem GetChild_eq (s : State) (aliaseOfChild : String) :
    GetChild s aliaseOfChild =
      .returned s ((s.holder.aliasesOfChildren.find aliaseOfChild).bind Prod.snd) := by
  unfold GetChild
  cases s.holder.aliasesOfChildren.find aliaseOfChild <;> rfl

theorem RemoveChild_eq (s : State) (child : Ptr) :
    RemoveChild s child =
      .returned
        { this_ := s.this_,
          holder :=
            { Children := s.holder.Children.filter (fun c => some c ≠ child),
              aliasesOfChildren := s.holder.aliasesOfChildren },
          objects := s.objects }
        () := by
  unfold RemoveChild
  have hloop : ∀ (l : List (String × Ptr)) (acc : List String),
      l.foldl (fun toDelete iter => if iter.2 = child then toDelete else toDelete) acc
        = acc := by
    intro l
    induction l with
    | nil => intro acc; rfl
    | cons x rest ih => intro acc; simp [List.foldl_cons, ih]
  simp only [hloop, List.foldl_nil]

theorem unordered_map.mem_keys_of_find (m : unordered_map) (key : String)
    (e : String × Ptr) (h : m.find key = some e) : key ∈ m.keys := by
  by_contra hn
  have h0 := (unordered_map.findIn_eq_none_iff m.entries key).mpr hn
  unfold unordered_map.find at h
  rw [h0] at h
  cases h

/-! The claims on `AddChild`, `AddAliase` and `GetChild`. -/

/-- C1: once a child named `n` has been added with `AddChild`, a second `AddChild` of a
child named `n` throws, and in the state the throw leaves `GetChild(n)` still returns
the first child. -/
theorem AddChild_second_same_name_throws (s : State) (first second : Addr) (n : String)
    (hfirst : (s.objects first).Name = n) (hsecond : (s.objects second).Name = n)
    (hadded : (AddChild s first).isThrown = false) :
    (AddChild (AddChild s first).state second).isThrown = true ∧
    (GetChild (AddChild (AddChild s first).state second).state n).value?
      = some (some first) := by
  by_cases hk : n ∈ s.holder.aliasesOfChildren.keys
  · rw [AddChild_of_key s first (by rw [hfirst]; exact hk)] at hadded
    simp [Outcome.isThrown] at hadded
  · rw [AddChild_of_not_key s first (by rw [hfirst]; exact hk)]
    simp only [Outcome.state]
    have hname : (Function.update s.objects first
        ((s.objects first).SetParent (some s.this_)) second).Name = n := by
      by_cases he : second = first
      · subst he
        simp [TChild.SetParent, hsecond]
      · simp [Function.update_noteq he, hsecond]
    have hkey : n ∈ (s.holder.aliasesOfChildren.assign n (some first)).keys :=
      unordered_map.mem_keys_of_find _ _ _ (unordered_map.find_assign_same _ _ _)
    rw [AddChild_of_key _ second (by simp only [hname, hfirst]; exact hkey)]
    refine ⟨rfl, ?_⟩
    simp only [Outcome.state, GetChild_eq, Outcome.value?, hfirst]
    rw [unordered_map.find_assign_same]
    rfl

/-- C1, at an example: "temp" added twice to the empty holder. -/
theorem AddChild_second_same_name_throws_witness :
    (exampleNames 1 = "temp" ∧ exampleNames 2 = "temp" ∧
      (AddChild (freshState exampleNames) 1).isThrown = false) ∧
    (AddChild (AddChild (freshState exampleNames) 1).state 2).isThrown = true ∧
    (GetChild (AddChild (AddChild (freshState exampleNames) 1).state 2).state "temp").value?
      = some (some 1) :=
  ⟨⟨by decide, by decide, by decide⟩,
    AddChild_second_same_name_throws (freshState exampleNames) 1 2 "temp"
      (by decide) (by decide) (by decide)⟩

/-- C2: `AddAliase(child, alias)` throws if and only if `alias` is already a key of the
alias map; when it throws the holder is unchanged; when it succeeds `GetChild(alias)`
returns `child` and every other alias resolves as before. -/
theorem AddAliase_throws_iff_key (s : State) (control : Ptr) (aliase : String) :
    ((AddAliase s control aliase).isThrown = true
      ↔ aliase ∈ s.holder.aliasesOfChildren.keys) ∧
    ((AddAliase s control aliase).isThrown = true →
      (AddAliase s control aliase).state.holder = s.holder) ∧
    ((AddAliase s control aliase).isThrown = false →
      (GetChild (AddAliase s control aliase).state aliase).value? = some control ∧
      ∀ other : String, other ≠ aliase →
        (GetChild (AddAliase s control aliase).state other).value?
          = (GetChild s other).value?) := by
  by_cases hk : aliase ∈ s.holder.aliasesOfChildren.keys
  · rw [AddAliase_of_key s control aliase hk]
    simp [Outcome.isThrown, Outcome.state, hk]
  · rw [AddAliase_of_not_key s control aliase hk]
    refine ⟨by simp [Outcome.isThrown, hk], by simp [Outcome.isThrown], ?_⟩
    intro _
    constructor
    · simp only [Outcome.state, GetChild_eq, Outcome.value?]
      rw [unordered_map.find_assign_same]
      rfl
    · intro other hne
      simp only [Outcome.state, GetChild_eq, Outcome.value?]
      rw [unordered_map.find_assign_other _ _ _ _ hne]

/-- C2, at an example: in the holder where "temp" names the child at address 1, adding
"temp" again throws and changes nothing, adding "t2" for the child at address 2
succeeds. -/
theorem AddAliase_throws_iff_key_witness :
    ((AddAliase stateWithTemp (some 2) "temp").isThrown = true ∧
      (AddAliase stateWithTemp (some 2) "temp").state.holder = stateWithTemp.holder) ∧
    ((AddAliase stateWithTemp (some 2) "t2").isThrown = false ∧
      (GetChild (AddAliase stateWithTemp (some 2) "t2").state "t2").value?
        = some (some 2) ∧
      (GetChild (AddAliase stateWithTemp (some 2) "t2").state "temp").value?
        = (GetChild stateWithTemp "temp").value?) :=
  ⟨⟨by decide,
      (AddAliase_throws_iff_key stateWithTemp (some 2) "temp").2.1 (by decide)⟩,
    ⟨by decide,
      ((AddAliase_throws_iff_key stateWithTemp (some 2) "t2").2.2 (by decide)).1,
      ((AddAliase_throws_iff_key stateWithTemp (some 2) "t2").2.2 (by decide)).2
        "temp" (by decide)⟩⟩

/-- C3: for a child whose `Name` is not yet a key of the alias map, `AddChild(child)`
returns, its result is that same child, the parent of the child is the holder itself
(`this`), the name of the child is what it was, and `GetChild(child.Name)` then returns
the child. -/
theorem AddChild_new_name_succeeds (s : State) (child : Addr)
    (hnew : (s.objects child).Name ∉ s.holder.aliasesOfChildren.keys) :
    (AddChild s child).isThrown = false ∧
    (AddChild s child).value? = some child ∧
    ((AddChild s child).state.objects child).GetParent = some s.this_ ∧
    ((AddChild s child).state.objects child).Name = (s.objects child).Name ∧
    (GetChild (AddChild s child).state (s.objects child).Name).value?
      = some (some child) := by
  rw [AddChild_of_not_key s child hnew]
  refine ⟨rfl, rfl, ?_, ?_, ?_⟩
  · simp [Outcome.state, TChild.GetParent, TChild.SetParent]
  · simp [Outcome.state, TChild.SetParent]
  · simp only [Outcome.state, GetChild_eq, Outcome.value?]
    rw [unordered_map.find_assign_same]
    rfl

/-- C3, at an example: the child at address 2 (named "temp") added to the empty
holder. -/
theorem AddChild_new_name_succeeds_witness :
    ((freshState exampleNames).objects 2).Name
      ∉ (freshState exampleNames).holder.aliasesOfChildren.keys ∧
    (AddChild (freshState exampleNames) 2).isThrown = false ∧
    (AddChild (freshState exampleNames) 2).value? = some 2 ∧
    ((AddChild (freshState exampleNames) 2).state.objects 2).GetParent
      = some (freshState exampleNames).this_ ∧
    ((AddChild (freshState exampleNames) 2).state.objects 2).Name
      = ((freshState exampleNames).objects 2).Name ∧
    (GetChild (AddChild (freshState exampleNames) 2).state
        ((freshState exampleNames).objects 2).Name).value? = some (some 2) :=
  ⟨by decide, AddChild_new_name_succeeds (freshState exampleNames) 2 (by decide)⟩

/-- C5: evaluation of a throwing `AddChild`: with "temp" already naming the child at
address 1, `AddChild` of the child at address 2 (also named "temp") throws, and the
state it leaves has the new child in `Children` and the parent of the new child set;
only the alias map is what it was. -/
theorem AddChild_throw_leaves_child_in_Children :
    (AddChild stateWithTemp 2).isThrown = true ∧
    stateWithTemp.holder.Children = [1] ∧
    (AddChild stateWithTemp 2).state.holder.Children = [1, 2] ∧
    (AddChild stateWithTemp 2).state.holder ≠ stateWithTemp.holder ∧
    (AddChild stateWithTemp 2).state.holder.aliasesOfChildren
      = stateWithTemp.holder.aliasesOfChildren ∧
    (stateWithTemp.objects 2).Parent = none ∧
    ((AddChild stateWithTemp 2).state.objects 2).Parent = some stateWithTemp.this_ := by
  decide

/-- C6: `GetChild(alias)` never throws and leaves the state as it is; it returns
`nullptr` when `alias` is not a key of the alias map; in a map with unique keys it
returns the value stored for `alias`; a child is returned only for an alias it is
stored under, so a child stored only under "+" or "#" is not returned for any other
alias. -/
theorem GetChild_exact_lookup (s : State) (aliase : String) :
    (GetChild s aliase).isThrown = false ∧
    (GetChild s aliase).state = s ∧
    (aliase ∉ s.holder.aliasesOfChildren.keys → (GetChild s aliase).value? = some none) ∧
    (s.holder.aliasesOfChildren.keys.Nodup →
      ∀ v : Ptr, (aliase, v) ∈ s.holder.aliasesOfChildren.entries →
        (GetChild s aliase).value? = some v) ∧
    (∀ c : Addr, (GetChild s aliase).value? = some (some c) →
      (aliase, some c) ∈ s.holder.aliasesOfChildren.entries) ∧
    (∀ c : Addr,
      (∀ key : String, (key, some c) ∈ s.holder.aliasesOfChildren.entries →
        key = "+" ∨ key = "#") →
      aliase ≠ "+" → aliase ≠ "#" → (GetChild s aliase).value? ≠ some (some c)) := by
  have hmem : ∀ c : Addr, (GetChild s aliase).value? = some (some c) →
      (aliase, some c) ∈ s.holder.aliasesOfChildren.entries := by
    intro c hc
    rw [GetChild_eq] at hc
    simp only [Outcome.value?, Option.some.injEq] at hc
    cases hf : s.holder.aliasesOfChildren.find aliase with
    | none => rw [hf] at hc; cases hc
    | some e =>
      rw [hf] at hc
      have hm := unordered_map.findIn_some_mem _ _ _ hf
      have he : e = (aliase, some c) := by
        cases e with
        | mk k v =>
          simp only [Option.bind] at hc
          simp only at hm
          rw [hm.2, hc]
      rw [← he]
      exact hm.1
  refine ⟨by rw [GetChild_eq]; rfl, by rw [GetChild_eq]; rfl, ?_, ?_, hmem, ?_⟩
  · intro hk
    have h0 := (unordered_map.findIn_eq_none_iff _ aliase).mpr hk
    rw [GetChild_eq]
    unfold unordered_map.find
    rw [h0]
    rfl
  · intro hnd v hv
    rw [GetChild_eq]
    unfold unordered_map.find
    rw [unordered_map.findIn_of_mem_nodup _ _ _ hnd hv]
    rfl
  · intro c honly h1 h2 hc
    rcases honly aliase (hmem c hc) with h | h
    · exact h1 h
    · exact h2 h

/-- C6, at an example: in the holder where "temp" names the child at address 1 and "+"
the child at address 4, `GetChild("x")` is `nullptr`, `GetChild("temp")` is the child at
address 1 and is not the child stored under "+". -/
theorem GetChild_exact_lookup_witness :
    ("x" ∉ stateWithPlus.holder.aliasesOfChildren.keys ∧
      (GetChild stateWithPlus "x").value? = some none) ∧
    (stateWithPlus.holder.aliasesOfChildren.keys.Nodup ∧
      ("temp", some 1) ∈ stateWithPlus.holder.aliasesOfChildren.entries ∧
      (GetChild stateWithPlus "temp").value? = some (some 1)) ∧
    ((GetChild stateWithPlus "+").value? = some (some 4) ∧
      ("+", some 4) ∈ stateWithPlus.holder.aliasesOfChildren.entries) ∧
    ((∀ key : String, (key, some 4) ∈ stateWithPlus.holder.aliasesOfChildren.entries →
        key = "+" ∨ key = "#") ∧
      (GetChild stateWithPlus "temp").value? ≠ some (some 4)) :=
  have honly : ∀ key : String,
      (key, some 4) ∈ stateWithPlus.holder.aliasesOfChildren.entries →
        key = "+" ∨ key = "#" := by
    intro key hkey
    have hentries : stateWithPlus.holder.aliasesOfChildren.entries
        = [("temp", some 1), ("+", some 4)] := by decide
    rw [hentries] at hkey
    simp at hkey
    exact Or.inl hkey
  ⟨⟨by decide, (GetChild_exact_lookup stateWithPlus "x").2.2.1 (by decide)⟩,
    ⟨by decide, by decide,
      (GetChild_exact_lookup stateWithPlus "temp").2.2.2.1 (by decide) (some 1) (by decide)⟩,
    ⟨by decide, (GetChild_exact_lookup stateWithPlus "+").2.2.2.2.1 4 (by decide)⟩,
    ⟨honly,
      (GetChild_exact_lookup stateWithPlus "temp").2.2.2.2.2 4 honly (by decide) (by decide)⟩⟩

/-! The claims on `GetChildForce` and `RemoveChild`. -/

/-- C7 as stated fails: "bar" is a key of the alias map of `stateWithNullAlias` (its
value is `nullptr`), and `GetChildForce("bar")` there calls `CreateChildByName`, hands
the created child to `AddChild` and ends in a throw with the created child in
`Children`. -/
theorem GetChildForce_registered_counterexample :
    ¬ (∀ (create : State → String → Outcome Addr) (s : State) (aliase : String),
        aliase ∈ s.holder.aliasesOfChildren.keys →
          (GetChildForce create s aliase).value? = (GetChild s aliase).value? ∧
          (GetChildForce create s aliase).state.holder = s.holder) := by
  intro h
  have hbar := h createAt5 stateWithNullAlias "bar" (by decide)
  have hthrown : (GetChildForce createAt5 stateWithNullAlias "bar").state.holder.Children
      = [5] := by decide
  rw [hbar.2] at hthrown
  exact absurd hthrown (by decide)

/-- C7, amended: for every alias for which `GetChild` returns a child (not `nullptr`),
`GetChildForce(alias)` returns that same child and ends in the state it started from,
whatever `CreateChildByName` is: the override is not called. -/
theorem GetChildForce_of_registered_child (create : State → String → Outcome Addr)
    (s : State) (aliase : String) (c : Addr)
    (hreg : (GetChild s aliase).value? = some (some c)) :
    GetChildForce create s aliase = .returned s (some c) ∧
    (GetChildForce create s aliase).value? = (GetChild s aliase).value? ∧
    (GetChildForce create s aliase).state.holder = s.holder := by
  have hforce : GetChildForce create s aliase = .returned s (some c) := by
    rw [GetChild_eq] at hreg
    simp only [Outcome.value?, Option.some.injEq] at hreg
    unfold GetChildForce
    rw [GetChild_eq, hreg]
    simp
  refine ⟨hforce, ?_, ?_⟩
  · rw [hforce, hreg]
    rfl
  · rw [hforce]
    rfl

/-- C7 amended, at an example: "temp" names the child at address 1; an override that
would create the object at address 5 is not called. -/
theorem GetChildForce_of_registered_child_witness :
    (GetChild stateWithTemp "temp").value? = some (some 1) ∧
    GetChildForce createAt5 stateWithTemp "temp" = .returned stateWithTemp (some 1) ∧
    (GetChildForce createAt5 stateWithTemp "temp").value?
      = (GetChild stateWithTemp "temp").value? ∧
    (GetChildForce createAt5 stateWithTemp "temp").state.holder = stateWithTemp.holder :=
  ⟨by decide, GetChildForce_of_registered_child createAt5 stateWithTemp "temp" 1 (by decide)⟩

/-- C8: with the default `CreateChildByName`, `GetChildForce(alias)` for an alias that
is not a key of the alias map throws the exception of `CreateChildByName` and ends in
the state it started from: nothing is created. -/
theorem GetChildForce_default_throws (s : State) (aliase : String)
    (hnew : aliase ∉ s.holder.aliasesOfChildren.keys) :
    GetChildForce CreateChildByName s aliase
      = .thrown s "You must override this method according to doc" ∧
    (GetChildForce CreateChildByName s aliase).isThrown = true ∧
    (GetChildForce CreateChildByName s aliase).state.holder = s.holder := by
  have h0 := (unordered_map.findIn_eq_none_iff _ aliase).mpr hnew
  have hforce : GetChildForce CreateChildByName s aliase
      = .thrown s "You must override this method according to doc" := by
    unfold GetChildForce
    rw [GetChild_eq]
    unfold unordered_map.find
    rw [h0]
    simp [CreateChildByName]
  refine ⟨hforce, ?_, ?_⟩
  · rw [hforce]
    rfl
  · rw [hforce]
    rfl

/-- C8, at an example: "x" is not registered in the holder that has "temp". -/
theorem GetChildForce_default_throws_witness :
    "x" ∉ stateWithTemp.holder.aliasesOfChildren.keys ∧
    GetChildForce CreateChildByName stateWithTemp "x"
      = .thrown stateWithTemp "You must override this method according to doc" ∧
    (GetChildForce CreateChildByName stateWithTemp "x").isThrown = true ∧
    (GetChildForce CreateChildByName stateWithTemp "x").state.holder
      = stateWithTemp.holder :=
  ⟨by decide, GetChildForce_default_throws stateWithTemp "x" (by decide)⟩

/-- C9: evaluation of `RemoveChild` for the only child of a holder: the child at address
1 was added under its name "temp"; after `RemoveChild` of that child `Children` is
empty, the alias map still has the entry for "temp", and `GetChild("temp")` still returns
the removed child instead of `nullptr`. -/
theorem RemoveChild_keeps_alias :
    stateWithTemp.holder.Children = [1] ∧
    (GetChild stateWithTemp "temp").value? = some (some 1) ∧
    (RemoveChild stateWithTemp (some 1)).isThrown = false ∧
    (RemoveChild stateWithTemp (some 1)).state.holder.Children = [] ∧
    (RemoveChild stateWithTemp (some 1)).state.holder.aliasesOfChildren.entries
      = [("temp", some 1)] ∧
    (GetChild (RemoveChild stateWithTemp (some 1)).state "temp").value?
      = some (some 1) := by
  decide

theorem EmplaceChild_of_key (s : State) (newChild : Addr) (construct : Ptr → TChild)
    (h : (construct (some s.this_)).Name ∈ s.holder.aliasesOfChildren.keys) :
    EmplaceChild s newChild construct =
      .thrown
        { this_ := s.this_,
          holder :=
            { Children := s.holder.Children ++ [newChild],
              aliasesOfChildren := s.holder.aliasesOfChildren },
          objects := Function.update s.objects newChild (construct (some s.this_)) }
        "Trying to add alias that already exist" := by
  unfold EmplaceChild placeNew
  simp only [Function.update_same]
  rw [AddAliase_of_key
    ({ this_ := s.this_,
       holder :=
         { Children := s.holder.Children ++ [newChild],
           aliasesOfChildren := s.holder.aliasesOfChildren },
       objects := Function.update s.objects newChild (construct (some s.this_)) } : State)
    (some newChild) (construct (some s.this_)).Name h]

theorem EmplaceChild_of_not_key (s : State) (newChild : Addr) (construct : Ptr → TChild)
    (h : (construct (some s.this_)).Name ∉ s.holder.aliasesOfChildren.keys) :
    EmplaceChild s newChild construct =
      .returned
        { this_ := s.this_,
          holder :=
            { Children := s.holder.Children ++ [newChild],
              aliasesOfChildren :=
                s.holder.aliasesOfChildren.assign (construct (some s.this_)).Name
                  (some newChild) },
          objects := Function.update s.objects newChild (construct (some s.this_)) }
        newChild := by
  unfold EmplaceChild placeNew
  simp only [Function.update_same]
  rw [AddAliase_of_not_key
    ({ this_ := s.this_,
       holder :=
         { Children := s.holder.Children ++ [newChild],
           aliasesOfChildren := s.holder.aliasesOfChildren },
       objects := Function.update s.objects newChild (construct (some s.this_)) } : State)
    (some newChild) (construct (some s.this_)).Name h]

theorem AddChild_Children (s : State) (child : Addr) :
    (AddChild s child).state.holder.Children = s.holder.Children ++ [child] := by
  by_cases hk : (s.objects child).Name ∈ s.holder.aliasesOfChildren.keys
  · rw [AddChild_of_key s child hk]
    rfl
  · rw [AddChild_of_not_key s child hk]
    rfl

theorem AddChildren_Children (cs : List Addr) :
    ∀ s : State, (AddChildren s cs).isThrown = false →
      (AddChildren s cs).state.holder.Children = s.holder.Children ++ cs := by
  induction cs with
  | nil =>
    intro s _
    simp [AddChildren, Outcome.state]
  | cons c rest ih =>
    intro s h
    have hc := AddChild_Children s c
    unfold AddChildren at h ⊢
    cases hadd : AddChild s c with
    | thrown s1 what =>
      rw [hadd] at h
      simp [Outcome.isThrown] at h
    | returned s1 v =>
      rw [hadd] at h hc
      simp only at h ⊢
      simp only [Outcome.state] at hc
      rw [ih s1 h, hc]
      simp

/-- C11: `RemoveChild(alias)` throws if and only if `alias` is not a key of the alias
map, and the state at the throw is the state before the call; when `alias` is a key,
the call is `RemoveChild(child)` for the pointer `child` that `GetChild(alias)`
returns. -/
theorem RemoveChildByAliase_throws_iff_not_key (s : State) (aliase : String) :
    ((RemoveChildByAliase s aliase).isThrown = true
      ↔ aliase ∉ s.holder.aliasesOfChildren.keys) ∧
    ((RemoveChildByAliase s aliase).isThrown = true →
      (RemoveChildByAliase s aliase).state = s) ∧
    (aliase ∈ s.holder.aliasesOfChildren.keys →
      ∃ child : Ptr, GetChild s aliase = .returned s child ∧
        RemoveChildByAliase s aliase = RemoveChild s child) := by
  unfold RemoveChildByAliase GetChild
  cases hf : s.holder.aliasesOfChildren.find aliase with
  | none =>
    have hk : aliase ∉ s.holder.aliasesOfChildren.keys :=
      (unordered_map.findIn_eq_none_iff _ _).mp hf
    exact ⟨by simp [Outcome.isThrown, hk], fun _ => rfl, fun h => absurd h hk⟩
  | some iter =>
    have hk : aliase ∈ s.holder.aliasesOfChildren.keys :=
      unordered_map.mem_keys_of_find _ _ _ hf
    refine ⟨?_, ?_, fun _ => ⟨iter.2, rfl, rfl⟩⟩
    · simp [RemoveChild_eq, Outcome.isThrown, hk]
    · intro h
      simp [RemoveChild_eq, Outcome.isThrown] at h

/-- C11, at an example: in the holder where "temp" names the child at address 1,
`RemoveChild("x")` throws and changes nothing, `RemoveChild("temp")` is
`RemoveChild` of the child at address 1. -/
theorem RemoveChildByAliase_throws_iff_not_key_witness :
    ((RemoveChildByAliase stateWithTemp "x").isThrown = true ∧
      (RemoveChildByAliase stateWithTemp "x").state = stateWithTemp) ∧
    ("temp" ∈ stateWithTemp.holder.aliasesOfChildren.keys ∧
      ∃ child : Ptr, GetChild stateWithTemp "temp" = .returned stateWithTemp child ∧
        RemoveChildByAliase stateWithTemp "temp" = RemoveChild stateWithTemp child) :=
  ⟨⟨by decide,
      (RemoveChildByAliase_throws_iff_not_key stateWithTemp "x").2.1 (by decide)⟩,
    ⟨by decide,
      (RemoveChildByAliase_throws_iff_not_key stateWithTemp "temp").2.2 (by decide)⟩⟩

/-- C12: after an `AddChild` or an `EmplaceChild` that returns, `Children` is the
sequence before the call with the new child appended at the end; children added one
after the other stand in `Children` in the order they were added. -/
theorem Children_in_insertion_order (s : State) (child newChild : Addr)
    (construct : Ptr → TChild) (cs : List Addr) :
    ((AddChild s child).isThrown = false →
      (AddChild s child).state.holder.Children = s.holder.Children ++ [child]) ∧
    ((EmplaceChild s newChild construct).isThrown = false →
      (EmplaceChild s newChild construct).state.holder.Children
        = s.holder.Children ++ [newChild]) ∧
    ((AddChildren s cs).isThrown = false →
      (AddChildren s cs).state.holder.Children = s.holder.Children ++ cs) := by
  refine ⟨fun _ => AddChild_Children s child, ?_, AddChildren_Children cs s⟩
  intro _
  by_cases hk : (construct (some s.this_)).Name ∈ s.holder.aliasesOfChildren.keys
  · rw [EmplaceChild_of_key s newChild construct hk]
    rfl
  · rw [EmplaceChild_of_not_key s newChild construct hk]
    rfl

/-- C12, at an example: on the holder with the child at address 1, `AddChild` of the
child at 3, `EmplaceChild` of a child "t2" at 7, and adding the children at 3 and 4 in
turn. -/
theorem Children_in_insertion_order_witness :
    ((AddChild stateWithTemp 3).isThrown = false ∧
      (AddChild stateWithTemp 3).state.holder.Children = [1, 3]) ∧
    ((EmplaceChild stateWithTemp 7 (constructNamed "t2")).isThrown = false ∧
      (EmplaceChild stateWithTemp 7 (constructNamed "t2")).state.holder.Children
        = [1, 7]) ∧
    ((AddChildren stateWithTemp [3, 4]).isThrown = false ∧
      (AddChildren stateWithTemp [3, 4]).state.holder.Children = [1, 3, 4]) :=
  ⟨⟨by decide,
      (Children_in_insertion_order stateWithTemp 3 7 (constructNamed "t2") [3, 4]).1
        (by decide)⟩,
    ⟨by decide,
      (Children_in_insertion_order stateWithTemp 3 7 (constructNamed "t2") [3, 4]).2.1
        (by decide)⟩,
    ⟨by decide,
      (Children_in_insertion_order stateWithTemp 3 7 (constructNamed "t2") [3, 4]).2.2
        (by decide)⟩⟩

/-- C13: the result of `GetChildReference` does not depend on the alias it is given,
`operator[]` is `GetChildReference`, and so, whatever the call `GetChildForce()` without
argument computes, `GetChildReference` cannot give for every alias the child that
`GetChildForce(alias)` gives: in the holder where "temp" names the child at address 1
and "+" the child at address 4 the two differ. -/
theorem GetChildReference_ignores_alias :
    (∀ (f : State → Outcome Ptr) (s : State) (a b : String),
      GetChildReference f s a = GetChildReference f s b) ∧
    (∀ (f : State → Outcome Ptr) (s : State) (a : String),
      operatorIndex f s a = GetChildReference f s a) ∧
    (GetChildForce CreateChildByName stateWithPlus "temp").value? = some (some 1) ∧
    (GetChildForce CreateChildByName stateWithPlus "+").value? = some (some 4) ∧
    ¬ ∃ f : State → Outcome Ptr, ∀ a : String,
      (GetChildReference f stateWithPlus a).value?
        = (GetChildForce CreateChildByName stateWithPlus a).value? := by
  have h1 : (GetChildForce CreateChildByName stateWithPlus "temp").value?
      = some (some 1) := by decide
  have h4 : (GetChildForce CreateChildByName stateWithPlus "+").value?
      = some (some 4) := by decide
  refine ⟨fun _ _ _ _ => rfl, fun _ _ _ => rfl, h1, h4, ?_⟩
  rintro ⟨f, hf⟩
  have ht := hf "temp"
  have hp := hf "+"
  rw [h1] at ht
  rw [h4] at hp
  have heq : GetChildReference f stateWithPlus "temp"
      = GetChildReference f stateWithPlus "+" := rfl
  rw [heq, hp] at ht
  exact absurd ht (by decide)

/-- C14: `EmplaceChild(args)` ends in the same holder, with the same result and the same
throw, as `AddChild` of the child that the constructor builds from `this` and the
arguments; it throws exactly when the name of that child is already a key of the alias
map; when it returns, the result is the new child, `Children` has it appended and
`GetChild` of its name returns it; and when the constructor stores the parent it is
handed, the whole state is that of `AddChild` and the parent of the new child is the
holder itself. -/
theorem EmplaceChild_as_AddChild (s : State) (newChild : Addr) (construct : Ptr → TChild) :
    (EmplaceChild s newChild construct).state.holder
      = (AddChild (placeNew s newChild (construct (some s.this_))) newChild).state.holder ∧
    (EmplaceChild s newChild construct).isThrown
      = (AddChild (placeNew s newChild (construct (some s.this_))) newChild).isThrown ∧
    (EmplaceChild s newChild construct).value?
      = (AddChild (placeNew s newChild (construct (some s.this_))) newChild).value? ∧
    ((EmplaceChild s newChild construct).isThrown = true
      ↔ (construct (some s.this_)).Name ∈ s.holder.aliasesOfChildren.keys) ∧
    ((EmplaceChild s newChild construct).isThrown = false →
      (EmplaceChild s newChild construct).value? = some newChild ∧
      (EmplaceChild s newChild construct).state.holder.Children
        = s.holder.Children ++ [newChild] ∧
      (GetChild (EmplaceChild s newChild construct).state
          (construct (some s.this_)).Name).value? = some (some newChild)) ∧
    ((construct (some s.this_)).GetParent = some s.this_ →
      EmplaceChild s newChild construct
        = AddChild (placeNew s newChild (construct (some s.this_))) newChild ∧
      ((EmplaceChild s newChild construct).state.objects newChild).GetParent
        = some s.this_) := by
  have hname : ((placeNew s newChild (construct (some s.this_))).objects newChild).Name
      = (construct (some s.this_)).Name := by
    simp [placeNew]
  have hsame : (construct (some s.this_)).Parent = some s.this_ →
      (construct (some s.this_)).SetParent (some s.this_) = construct (some s.this_) := by
    intro hp
    cases hc : construct (some s.this_) with
    | mk n p =>
      rw [hc] at hp
      simp only at hp
      simp [TChild.SetParent, hp]
  by_cases hk : (construct (some s.this_)).Name ∈ s.holder.aliasesOfChildren.keys
  · rw [EmplaceChild_of_key s newChild construct hk,
      AddChild_of_key (placeNew s newChild (construct (some s.this_))) newChild
        (by rw [hname]; exact hk)]
    refine ⟨rfl, rfl, rfl, by simp [Outcome.isThrown, hk], by simp [Outcome.isThrown], ?_⟩
    intro hp
    simp only [TChild.GetParent] at hp
    refine ⟨?_, by simp [Outcome.state, TChild.GetParent, hp]⟩
    simp [placeNew, hsame hp]
  · rw [EmplaceChild_of_not_key s newChild construct hk,
      AddChild_of_not_key (placeNew s newChild (construct (some s.this_))) newChild
        (by rw [hname]; exact hk)]
    refine ⟨by simp [Outcome.state, placeNew], rfl, rfl, by simp [Outcome.isThrown, hk],
      ?_, ?_⟩
    · intro _
      refine ⟨rfl, rfl, ?_⟩
      simp only [Outcome.state, GetChild_eq, Outcome.value?]
      rw [unordered_map.find_assign_same]
      rfl
    · intro hp
      simp only [TChild.GetParent] at hp
      refine ⟨?_, by simp [Outcome.state, TChild.GetParent, hp]⟩
      simp [placeNew, hsame hp]

/-- C14, at an example: `EmplaceChild` of a child named "t2" at address 7 into the
holder that has "temp", and of a child named "temp", which throws. -/
theorem EmplaceChild_as_AddChild_witness :
    ((EmplaceChild stateWithTemp 7 (constructNamed "temp")).isThrown = true ∧
      "temp" ∈ stateWithTemp.holder.aliasesOfChildren.keys) ∧
    ((EmplaceChild stateWithTemp 7 (constructNamed "t2")).isThrown = false ∧
      (EmplaceChild stateWithTemp 7 (constructNamed "t2")).value? = some 7 ∧
      (EmplaceChild stateWithTemp 7 (constructNamed "t2")).state.holder.Children
        = stateWithTemp.holder.Children ++ [7] ∧
      (GetChild (EmplaceChild stateWithTemp 7 (constructNamed "t2")).state
          (constructNamed "t2" (some stateWithTemp.this_)).Name).value?
        = some (some 7)) ∧
    ((constructNamed "t2" (some stateWithTemp.this_)).GetParent
        = some stateWithTemp.this_ ∧
      EmplaceChild stateWithTemp 7 (constructNamed "t2")
        = AddChild
            (placeNew stateWithTemp 7 (constructNamed "t2" (some stateWithTemp.this_))) 7 ∧
      ((EmplaceChild stateWithTemp 7 (constructNamed "t2")).state.objects 7).GetParent
        = some stateWithTemp.this_) :=
  ⟨⟨by decide,
      (EmplaceChild_as_AddChild stateWithTemp 7 (constructNamed "temp")).2.2.2.1.mp
        (by decide)⟩,
    ⟨by decide,
      (EmplaceChild_as_AddChild stateWithTemp 7 (constructNamed "t2")).2.2.2.2.1
        (by decide)⟩,
    ⟨by decide,
      (EmplaceChild_as_AddChild stateWithTemp 7 (constructNamed "t2")).2.2.2.2.2
        (by decide)⟩⟩

/-! Topics: splitting, joining and matching. -/

theorem splitOnSlash_of_no_slash (l : List Char) (h : '/' ∉ l) : splitOnSlash l = [l] := by
  induction l with
  | nil => rfl
  | cons c cs ih =>
    have hc : c ≠ '/' := fun hc => h (by simp [hc])
    have hcs : '/' ∉ cs := fun hcs => h (List.mem_cons_of_mem _ hcs)
    simp [splitOnSlash, hc, ih hcs]

theorem splitOnSlash_append_slash (l r : List Char) (h : '/' ∉ l) :
    splitOnSlash (l ++ '/' :: r) = l :: splitOnSlash r := by
  induction l with
  | nil => simp [splitOnSlash]
  | cons c cs ih =>
    have hc : c ≠ '/' := fun hc => h (by simp [hc])
    have hcs : '/' ∉ cs := fun hcs => h (List.mem_cons_of_mem _ hcs)
    simp [splitOnSlash, hc, ih hcs]

theorem splitOnSlash_joinWithSlash (ls : List (List Char)) (hne : ls ≠ [])
    (h : ∀ l ∈ ls, '/' ∉ l) : splitOnSlash (joinWithSlash ls) = ls := by
  induction ls with
  | nil => exact absurd rfl hne
  | cons l rest ih =>
    cases rest with
    | nil => simpa [joinWithSlash] using splitOnSlash_of_no_slash l (h l (by simp))
    | cons next rest2 =>
      have hl : '/' ∉ l := h l (by simp)
      have hrest : ∀ x ∈ next :: rest2, '/' ∉ x :=
        fun x hx => h x (List.mem_cons_of_mem _ hx)
      simp only [joinWithSlash]
      rw [splitOnSlash_append_slash _ _ hl, ih (by simp) hrest]

theorem joinWithSlash_ne_nil (ls : List (List Char)) (hne : ls ≠ [])
    (h : ∀ l ∈ ls, l ≠ []) : joinWithSlash ls ≠ [] := by
  cases ls with
  | nil => exact absurd rfl hne
  | cons l rest =>
    have hl : l ≠ [] := h l (by simp)
    cases rest with
    | nil => simpa [joinWithSlash] using hl
    | cons next rest2 => simp [joinWithSlash, hl]

theorem validSegment_data (seg : String) (h : validSegment seg = true) :
    seg.data ≠ [] ∧ '/' ∉ seg.data := by
  unfold validSegment at h
  simp only [Bool.or_eq_true, Bool.and_eq_true, decide_eq_true_eq, List.all_eq_true] at h
  rcases h with (h | h) | h
  · subst h
    decide
  · subst h
    decide
  · refine ⟨h.1, fun hmem => ?_⟩
    have := h.2 _ hmem
    simp [reservedChars] at this

theorem TTopic.split_join_of_valid (segments : TTopic)
    (h : ∀ seg ∈ segments, validSegment seg = true) :
    TTopic.split (TTopic.join segments) = segments := by
  unfold TTopic.split TTopic.join
  cases hs : segments with
  | nil => simp [joinWithSlash]
  | cons seg rest =>
    rw [← hs]
    have hne : segments.map String.data ≠ [] := by simp [hs]
    have hdata : ∀ l ∈ segments.map String.data, l ≠ [] ∧ '/' ∉ l := by
      intro l hl
      obtain ⟨x, hx, rfl⟩ := List.mem_map.mp hl
      exact validSegment_data x (h x hx)
    have hjoin := joinWithSlash_ne_nil _ hne (fun l hl => (hdata l hl).1)
    simp only [hjoin, if_false]
    rw [splitOnSlash_joinWithSlash _ hne (fun l hl => (hdata l hl).2), List.map_map]
    have hid : (String.mk ∘ String.data) = id := by
      funext x
      rfl
    rw [hid, List.map_id]

theorem TTopic.matchesPattern_length (pattern : TTopic) :
    ∀ concrete : TTopic, "#" ∉ pattern → TTopic.matchesPattern pattern concrete = true →
      concrete.length = pattern.length := by
  induction pattern with
  | nil =>
    intro concrete _ hm
    cases concrete with
    | nil => rfl
    | cons c cs => simp [TTopic.matchesPattern] at hm
  | cons p ps ih =>
    intro concrete hhash hm
    have hp : p ≠ "#" := fun hp => hhash (by simp [hp])
    have hps : "#" ∉ ps := fun h => hhash (List.mem_cons_of_mem _ h)
    cases concrete with
    | nil => simp [TTopic.matchesPattern, hp] at hm
    | cons c cs =>
      by_cases hplus : p = "+"
      · simp [TTopic.matchesPattern, hp, hplus] at hm
        simp [ih cs hps hm.2]
      · simp [TTopic.matchesPattern, hp, hplus] at hm
        simp [ih cs hps hm.2]

/-- C17: topic matching follows the MQTT rule. The four matches of the specification
come out as stated; "+" consumes exactly one non-empty segment and matches no missing
one; a final "#" matches every remainder, the empty one included; any other segment
matches literally; and a pattern without "#" matches only topics with as many segments
as it has. -/
theorem matchesPattern_mqtt_rule :
    TTopic.matchesRaw "a/+/c" "a/b/c" = some true ∧
    TTopic.matchesRaw "a/+/c" "a/b/b/c" = some false ∧
    TTopic.matchesRaw "a/#" "a/b/c" = some true ∧
    TTopic.matchesRaw "a/#" "a" = some true ∧
    (∀ (ps cs : TTopic) (c : String), c ≠ "" →
      TTopic.matchesPattern ("+" :: ps) (c :: cs) = TTopic.matchesPattern ps cs) ∧
    (∀ ps : TTopic, TTopic.matchesPattern ("+" :: ps) [] = false) ∧
    (∀ cs : TTopic, TTopic.matchesPattern ["#"] cs = true) ∧
    (∀ (p c : String) (ps cs : TTopic), p ≠ "+" → p ≠ "#" →
      TTopic.matchesPattern (p :: ps) (c :: cs)
        = (decide (p = c) && TTopic.matchesPattern ps cs)) ∧
    (∀ pattern concrete : TTopic, "#" ∉ pattern →
      TTopic.matchesPattern pattern concrete = true →
        concrete.length = pattern.length) := by
  refine ⟨by decide, by decide, by decide, by decide, ?_, ?_, ?_, ?_, ?_⟩
  · intro ps cs c hc
    simp [TTopic.matchesPattern, hc]
  · intro ps
    simp [TTopic.matchesPattern]
  · intro cs
    cases cs <;> simp [TTopic.matchesPattern]
  · intro p c ps cs h1 h2
    simp [TTopic.matchesPattern, h1, h2]
  · exact fun pattern concrete => TTopic.matchesPattern_length pattern concrete

/-- C17, at examples: "+" against the segment "b", a literal segment, and the pattern
a/+/c against a topic of four segments. -/
theorem matchesPattern_mqtt_rule_witness :
    ("b" ≠ "" ∧
      TTopic.matchesPattern ("+" :: ["c"]) ("b" :: ["c"])
        = TTopic.matchesPattern ["c"] ["c"]) ∧
    ("a" ≠ "+" ∧ "a" ≠ "#" ∧
      TTopic.matchesPattern ("a" :: ["+"]) ("b" :: ["c"])
        = (decide ("a" = "b") && TTopic.matchesPattern ["+"] ["c"])) ∧
    ("#" ∉ ["a", "+", "c"] ∧ TTopic.matchesPattern ["a", "+", "c"] ["a", "b", "c"] = true ∧
      ["a", "b", "c"].length = ["a", "+", "c"].length) :=
  ⟨⟨by decide, matchesPattern_mqtt_rule.2.2.2.2.1 ["c"] ["c"] "b" (by decide)⟩,
    ⟨by decide, by decide,
      matchesPattern_mqtt_rule.2.2.2.2.2.2.2.1 "a" "b" ["+"] ["c"] (by decide) (by decide)⟩,
    ⟨by decide, by decide,
      matchesPattern_mqtt_rule.2.2.2.2.2.2.2.2 ["a", "+", "c"] ["a", "b", "c"]
        (by decide) (by decide)⟩⟩

/-- C18: for every sequence of valid topic segments, joining the segments with "/" and
splitting the result again yields the original sequence; when moreover "#" stands only
in final position, parsing the joined string yields the sequence. -/
theorem split_join_roundtrip (segments : TTopic)
    (hvalid : ∀ seg ∈ segments, validSegment seg = true) :
    TTopic.split (TTopic.join segments) = segments ∧
    (validTopic segments = true → TTopic.parse (TTopic.join segments) = some segments) := by
  have hsplit := TTopic.split_join_of_valid segments hvalid
  refine ⟨hsplit, fun hv => ?_⟩
  unfold TTopic.parse
  rw [hsplit, hv]
  rfl

/-- C18, at an example: the segments "devices", "+", "state", "#". -/
theorem split_join_roundtrip_witness :
    (∀ seg ∈ ["devices", "+", "state", "#"], validSegment seg = true) ∧
    TTopic.join ["devices", "+", "state", "#"] = "devices/+/state/#" ∧
    TTopic.split (TTopic.join ["devices", "+", "state", "#"])
      = ["devices", "+", "state", "#"] ∧
    validTopic ["devices", "+", "state", "#"] = true ∧
    TTopic.parse (TTopic.join ["devices", "+", "state", "#"])
      = some ["devices", "+", "state", "#"] :=
  ⟨by decide, by decide,
    (split_join_roundtrip ["devices", "+", "state", "#"] (by decide)).1,
    by decide,
    (split_join_roundtrip ["devices", "+", "state", "#"] (by decide)).2 (by decide)⟩

/-! Delegation of a message to the children. -/

theorem childUnder_of_GetChild (s : State) (aliase : String) (child : Ptr)
    (h : (GetChild s aliase).value? = some child) : childUnder s aliase = child := by
  unfold childUnder
  rw [GetChild_eq] at h ⊢
  simpa [Outcome.value?] using h

theorem delegateLoop_result {σ : Type} (process : σ → Addr → TMessage → σ × Bool)
    (targets : List (Addr × TMessage)) :
    ∀ (w : σ) (accepted : Bool),
      (delegateLoop process w targets accepted).2
        = (accepted || (delegateReports process w targets).any id) := by
  induction targets with
  | nil =>
    intro w accepted
    simp [delegateLoop, delegateReports]
  | cons target rest ih =>
    intro w accepted
    cases target with
    | mk child message =>
      simp only [delegateLoop, delegateReports, List.any_cons, id]
      rw [ih]
      simp [Bool.or_assoc]

theorem delegateReports_length {σ : Type} (process : σ → Addr → TMessage → σ × Bool)
    (targets : List (Addr × TMessage)) :
    ∀ w : σ, (delegateReports process w targets).length = targets.length := by
  induction targets with
  | nil =>
    intro w
    rfl
  | cons target rest ih =>
    intro w
    cases target with
    | mk child message => simp [delegateReports, ih]

theorem delegateLoop_recordDelivery (targets : List (Addr × TMessage)) :
    ∀ (log : List (Addr × TMessage)) (accepted : Bool),
      (delegateLoop recordDelivery log targets accepted).1 = log ++ targets := by
  induction targets with
  | nil =>
    intro log accepted
    simp [delegateLoop]
  | cons target rest ih =>
    intro log accepted
    cases target with
    | mk child message =>
      simp only [delegateLoop]
      rw [ih]
      simp [recordDelivery]

theorem delegateLoop_withDeliveryLog {σ : Type} (process : σ → Addr → TMessage → σ × Bool)
    (targets : List (Addr × TMessage)) :
    ∀ (w : σ) (log : List (Addr × TMessage)) (accepted : Bool),
      delegateLoop (withDeliveryLog process) (w, log) targets accepted
        = (((delegateLoop process w targets accepted).1, log ++ targets),
            (delegateLoop process w targets accepted).2) := by
  induction targets with
  | nil =>
    intro w log accepted
    simp [delegateLoop]
  | cons target rest ih =>
    intro w log accepted
    cases target with
    | mk child message =>
      simp only [delegateLoop, withDeliveryLog]
      rw [ih]
      simp

/-- C15: whatever the children do with a message and whatever they answer, a run of the
delegation calls, in this order and once each, the child under the first segment of the
topic and the child under "+" with the rest of the topic, and the child under "#" with
the whole topic; the calls are those recorded by `withDeliveryLog`, which leaves the
state of the children and the result as they are without the record. So a node whose
alias map has children under "x", "+" and "#" and that receives a message with topic
"x/y" hands it to exactly these three: the "x" child and the "+" child get it with
topic "y", the "#" child gets it with topic "x/y". -/
theorem delegation_reaches_all_matching {σ : Type}
    (process : σ → Addr → TMessage → σ × Bool) (w : σ) (s : State) (cx cp ch : Addr)
    (kind : TMessageType) (value : String)
    (hx : (GetChild s "x").value? = some (some cx))
    (hp : (GetChild s "+").value? = some (some cp))
    (hh : (GetChild s "#").value? = some (some ch)) :
    TTopic.parse "x/y" = some ["x", "y"] ∧
    (TryDelegateMessageToChildren (withDeliveryLog process) (w, []) s
        { Topic := TTopic.split "x/y", MessageType := kind, Value := value }).1.2
      = [(cx, { Topic := ["y"], MessageType := kind, Value := value }),
         (cp, { Topic := ["y"], MessageType := kind, Value := value }),
         (ch, { Topic := ["x", "y"], MessageType := kind, Value := value })] ∧
    (∀ (message : TMessage) (head : String) (rest : TTopic),
      message.Topic = head :: rest →
      (TryDelegateMessageToChildren (withDeliveryLog process) (w, []) s message).1.2
        = (childUnder s head).toList.map (fun child => (child, { message with Topic := rest }))
          ++ (childUnder s "+").toList.map
              (fun child => (child, { message with Topic := rest }))
          ++ (childUnder s "#").toList.map (fun child => (child, message))) ∧
    (∀ message : TMessage,
      (TryDelegateMessageToChildren (withDeliveryLog process) (w, []) s message).1.1
          = (TryDelegateMessageToChildren process w s message).1 ∧
        (TryDelegateMessageToChildren (withDeliveryLog process) (w, []) s message).2
          = (TryDelegateMessageToChildren process w s message).2) := by
  have hlog : ∀ message : TMessage,
      (TryDelegateMessageToChildren (withDeliveryLog process) (w, []) s message).1.2
        = delegationTargets s message := by
    intro message
    unfold TryDelegateMessageToChildren
    rw [delegateLoop_withDeliveryLog]
    simp
  have hsplit : TTopic.split "x/y" = ["x", "y"] := by decide
  refine ⟨by decide, ?_, ?_, ?_⟩
  · rw [hlog, hsplit]
    simp [delegationTargets, TTopic.firstSegment, childUnder_of_GetChild s "x" _ hx,
      childUnder_of_GetChild s "+" _ hp, childUnder_of_GetChild s "#" _ hh]
  · intro message head rest htopic
    rw [hlog]
    unfold delegationTargets
    rw [htopic]
    rfl
  · intro message
    unfold TryDelegateMessageToChildren
    rw [delegateLoop_withDeliveryLog]
    exact ⟨rfl, rfl⟩

/-- C15, at an example: the children at addresses 6, 4 and 3 stand under "x", "+" and
"#", and each of them accepts the message. -/
theorem delegation_reaches_all_matching_witness :
    ((GetChild stateWithWildcards "x").value? = some (some 6) ∧
      (GetChild stateWithWildcards "+").value? = some (some 4) ∧
      (GetChild stateWithWildcards "#").value? = some (some 3)) ∧
    TTopic.parse "x/y" = some ["x", "y"] ∧
    (TryDelegateMessageToChildren (withDeliveryLog everyChildAccepts) ((), [])
        stateWithWildcards
        { Topic := TTopic.split "x/y", MessageType := TMessageType.DOWN_VALUE_CHANGE,
          Value := "1" }).1.2
      = [(6, { Topic := ["y"], MessageType := TMessageType.DOWN_VALUE_CHANGE, Value := "1" }),
         (4, { Topic := ["y"], MessageType := TMessageType.DOWN_VALUE_CHANGE, Value := "1" }),
         (3, { Topic := ["x", "y"], MessageType := TMessageType.DOWN_VALUE_CHANGE,
               Value := "1" })] :=
  have h := delegation_reaches_all_matching everyChildAccepts () stateWithWildcards 6 4 3
    TMessageType.DOWN_VALUE_CHANGE "1" (by decide) (by decide) (by decide)
  ⟨⟨by decide, by decide, by decide⟩, h.1, h.2.1⟩

/-- C16: the result of `TryDelegateMessageToChildren` is accepted if and only if one of
the children the message was delegated to reported acceptance; every child delegated to
is asked once; with no matching child the result is rejected. -/
theorem delegation_accepted_iff {σ : Type} (process : σ → Addr → TMessage → σ × Bool)
    (w : σ) (s : State) (message : TMessage) :
    ((TryDelegateMessageToChildren process w s message).2 = true
      ↔ true ∈ delegateReports process w (delegationTargets s message)) ∧
    (delegateReports process w (delegationTargets s message)).length
      = (delegationTargets s message).length ∧
    (delegationTargets s message = [] →
      (TryDelegateMessageToChildren process w s message).2 = false) := by
  unfold TryDelegateMessageToChildren
  rw [delegateLoop_result]
  refine ⟨?_, delegateReports_length _ _ _, ?_⟩
  · simp [List.any_eq_true]
  · intro h
    rw [h]
    rfl

/-- C16, at examples: with children under "x", "+" and "#", of which only the one under
"+" accepts, the delegation of "x/y" is accepted; in the empty holder nobody is
delegated to and the result is rejected. -/
theorem delegation_accepted_iff_witness :
    (true ∈ delegateReports onlyChild4Accepts ()
        (delegationTargets stateWithWildcards
          { Topic := ["x", "y"], MessageType := TMessageType.DOWN_VALUE_CHANGE,
            Value := "1" }) ∧
      (TryDelegateMessageToChildren onlyChild4Accepts () stateWithWildcards
          { Topic := ["x", "y"], MessageType := TMessageType.DOWN_VALUE_CHANGE,
            Value := "1" }).2 = true) ∧
    (delegationTargets (freshState exampleNames)
        { Topic := ["x", "y"], MessageType := TMessageType.DOWN_VALUE_CHANGE, Value := "1" }
        = [] ∧
      (TryDelegateMessageToChildren onlyChild4Accepts () (freshState exampleNames)
          { Topic := ["x", "y"], MessageType := TMessageType.DOWN_VALUE_CHANGE,
            Value := "1" }).2 = false) :=
  ⟨⟨by decide,
      (delegation_accepted_iff onlyChild4Accepts () stateWithWildcards
        { Topic := ["x", "y"], MessageType := TMessageType.DOWN_VALUE_CHANGE,
          Value := "1" }).1.mpr (by decide)⟩,
    ⟨by decide,
      (delegation_accepted_iff onlyChild4Accepts () (freshState exampleNames)
        { Topic := ["x", "y"], MessageType := TMessageType.DOWN_VALUE_CHANGE,
          Value := "1" }).2.2 (by decide)⟩⟩

/-! The value of a node and its error state. -/

/-- C19: `SetValue(newValue)` stores `newValue` and then calls the change hook with the
value held before the call and `newValue`; with the default `OnSetValue` the value
afterwards is `newValue`, one upward Publish message with the new value is emitted when
the old value differs from it, and nothing is emitted when they are equal. -/
theorem SetValue_stores_then_notifies
    (hook : TValueHolder → String → String → TValueHolder) (self : TValueHolder)
    (newValue : String) :
    SetValue hook self newValue
      = hook { Value := newValue, sentUp := self.sentUp } self.Value newValue ∧
    (SetValue OnSetValue self newValue).Value = newValue ∧
    (self.Value ≠ newValue →
      (SetValue OnSetValue self newValue).sentUp
        = self.sentUp ++ [{ Topic := [], MessageType := TMessageType.UP_PUBLISH,
                            Value := newValue }]) ∧
    (self.Value = newValue → (SetValue OnSetValue self newValue).sentUp = self.sentUp) := by
  refine ⟨rfl, ?_, ?_, ?_⟩
  · unfold SetValue OnSetValue
    by_cases h : self.Value = newValue <;> simp [h]
  · intro h
    simp [SetValue, OnSetValue, h, TMessage.CreatePublishMessage]
  · intro h
    simp [SetValue, OnSetValue, h]

/-- C19, at examples: the value "0" set to "1" and set to "0" again, and a hook that
shows the arguments it was called with. -/
theorem SetValue_stores_then_notifies_witness :
    (SetValue hookShowingArguments { Value := "0", sentUp := [] } "1").Value = "0>1" ∧
    (("0" : String) ≠ "1" ∧
      (SetValue OnSetValue { Value := "0", sentUp := [] } "1").sentUp
        = [{ Topic := [], MessageType := TMessageType.UP_PUBLISH, Value := "1" }]) ∧
    (("0" : String) = "0" ∧
      (SetValue OnSetValue { Value := "0", sentUp := [] } "0").sentUp = []) :=
  ⟨by
      rw [(SetValue_stores_then_notifies hookShowingArguments
        { Value := "0", sentUp := [] } "1").1]
      decide,
    ⟨by decide,
      (SetValue_stores_then_notifies OnSetValue { Value := "0", sentUp := [] } "1").2.2.1
        (by decide)⟩,
    ⟨rfl,
      (SetValue_stores_then_notifies OnSetValue { Value := "0", sentUp := [] } "0").2.2.2
        rfl⟩⟩

theorem THierarchyNode.SetErrorRecursiveAll_eq_map (cs : List THierarchyNode) :
    THierarchyNode.SetErrorRecursiveAll cs
      = cs.map (THierarchyNode.SetErrorRecursive true) := by
  induction cs with
  | nil => simp [THierarchyNode.SetErrorRecursiveAll]
  | cons c rest ih => simp [THierarchyNode.SetErrorRecursiveAll, ih]

theorem THierarchyNode.CleanErrorRecursiveAll_eq_map (cs : List THierarchyNode) :
    THierarchyNode.CleanErrorRecursiveAll cs
      = cs.map (THierarchyNode.CleanErrorRecursive true) := by
  induction cs with
  | nil => simp [THierarchyNode.CleanErrorRecursiveAll]
  | cons c rest ih => simp [THierarchyNode.CleanErrorRecursiveAll, ih]

theorem THierarchyNode.child?_SetErrorRecursive (isParentError : Bool)
    (node : THierarchyNode) (k : Nat) :
    (THierarchyNode.SetErrorRecursive isParentError node).child? k
      = (node.child? k).map (THierarchyNode.SetErrorRecursive true) := by
  cases node with
  | mk name own inherited cs =>
    simp [THierarchyNode.SetErrorRecursive, THierarchyNode.child?, THierarchyNode.children,
      THierarchyNode.SetErrorRecursiveAll_eq_map]

theorem THierarchyNode.child?_CleanErrorRecursive (isParentError : Bool)
    (node : THierarchyNode) (k : Nat) :
    (THierarchyNode.CleanErrorRecursive isParentError node).child? k
      = (node.child? k).map (THierarchyNode.CleanErrorRecursive true) := by
  cases node with
  | mk name own inherited cs =>
    simp [THierarchyNode.CleanErrorRecursive, THierarchyNode.child?,
      THierarchyNode.children, THierarchyNode.CleanErrorRecursiveAll_eq_map]

theorem THierarchyNode.get?_applyAt (f : THierarchyNode → THierarchyNode)
    (cs : List THierarchyNode) :
    ∀ k : Nat, (THierarchyNode.applyAt f k cs).get? k = (cs.get? k).map f := by
  induction cs with
  | nil =>
    intro k
    simp [THierarchyNode.applyAt]
  | cons c rest ih =>
    intro k
    cases k with
    | zero => simp [THierarchyNode.applyAt]
    | succ j => simpa [THierarchyNode.applyAt] using ih j

theorem THierarchyNode.child?_onChild (f : THierarchyNode → THierarchyNode)
    (node : THierarchyNode) (k : Nat) :
    (THierarchyNode.onChild k f node).child? k = (node.child? k).map f := by
  cases node with
  | mk name own inherited cs =>
    simp only [THierarchyNode.onChild, THierarchyNode.child?, THierarchyNode.children]
    exact THierarchyNode.get?_applyAt f cs k

theorem THierarchyNode.flags_SetErrorRecursive_true (node : THierarchyNode) :
    (THierarchyNode.SetErrorRecursive true node).ownError = node.ownError ∧
    (THierarchyNode.SetErrorRecursive true node).inheritedParentError = true := by
  cases node with
  | mk name own inherited cs =>
    simp [THierarchyNode.SetErrorRecursive, THierarchyNode.ownError,
      THierarchyNode.inheritedParentError]

theorem THierarchyNode.flags_CleanErrorRecursive_true (node : THierarchyNode) :
    (THierarchyNode.CleanErrorRecursive true node).ownError = node.ownError ∧
    (THierarchyNode.CleanErrorRecursive true node).inheritedParentError = false := by
  cases node with
  | mk name own inherited cs =>
    simp [THierarchyNode.CleanErrorRecursive, THierarchyNode.ownError,
      THierarchyNode.inheritedParentError]

theorem THierarchyNode.flags_CleanError (node : THierarchyNode) :
    (THierarchyNode.CleanError node).ownError = false ∧
    (THierarchyNode.CleanError node).inheritedParentError = node.inheritedParentError := by
  cases node with
  | mk name own inherited cs =>
    simp [THierarchyNode.CleanError, THierarchyNode.ownError,
      THierarchyNode.inheritedParentError]

theorem THierarchyNode.flags_SetError (node : THierarchyNode) :
    (THierarchyNode.SetError node).ownError = true ∧
    (THierarchyNode.SetError node).inheritedParentError = node.inheritedParentError := by
  cases node with
  | mk name own inherited cs =>
    simp [THierarchyNode.SetError, THierarchyNode.ownError,
      THierarchyNode.inheritedParentError]

/-- C20: for every child of a node: after the recursive `SetError` of the parent the
child has its inherited flag set; `CleanError` called directly on the child then leaves
the inherited flag set and the child unhealthy; once the error of the parent is cleaned
recursively as well the child is healthy; cleaning the error of the parent leaves the
own error flag of the child as it was, and an own error that the child set itself is
still set, and the child still unhealthy, after the parent has set and cleaned its
error. -/
theorem error_inheritance (parent child : THierarchyNode) (k : Nat)
    (hchild : parent.child? k = some child) :
    ((THierarchyNode.SetErrorRecursive false parent).child? k).map
        THierarchyNode.inheritedParentError = some true ∧
    ((THierarchyNode.onChild k THierarchyNode.CleanError
        (THierarchyNode.SetErrorRecursive false parent)).child? k).map
        THierarchyNode.inheritedParentError = some true ∧
    ((THierarchyNode.onChild k THierarchyNode.CleanError
        (THierarchyNode.SetErrorRecursive false parent)).child? k).map
        THierarchyNode.healthy = some false ∧
    ((THierarchyNode.CleanErrorRecursive false
        (THierarchyNode.onChild k THierarchyNode.CleanError
          (THierarchyNode.SetErrorRecursive false parent))).child? k).map
        THierarchyNode.healthy = some true ∧
    ((THierarchyNode.CleanErrorRecursive false parent).child? k).map
        THierarchyNode.ownError = some child.ownError ∧
    ((THierarchyNode.CleanErrorRecursive false
        (THierarchyNode.SetErrorRecursive false
          (THierarchyNode.onChild k THierarchyNode.SetError parent))).child? k).map
        THierarchyNode.ownError = some true ∧
    ((THierarchyNode.CleanErrorRecursive false
        (THierarchyNode.SetErrorRecursive false
          (THierarchyNode.onChild k THierarchyNode.SetError parent))).child? k).map
        THierarchyNode.healthy = some false := by
  simp only [THierarchyNode.child?_CleanErrorRecursive, THierarchyNode.child?_onChild,
    THierarchyNode.child?_SetErrorRecursive, hchild, Option.map_some', Option.some.injEq,
    THierarchyNode.healthy, THierarchyNode.flags_SetErrorRecursive_true,
    THierarchyNode.flags_CleanErrorRecursive_true, THierarchyNode.flags_CleanError,
    THierarchyNode.flags_SetError]
  simp

/-- C20, at an example: the first child of the example tree has no error of its own;
the second has one. -/
theorem error_inheritance_witness :
    (THierarchyNode.exampleTree.child? 0).map THierarchyNode.healthy = some true ∧
    ((THierarchyNode.onChild 0 THierarchyNode.CleanError
        (THierarchyNode.SetErrorRecursive false THierarchyNode.exampleTree)).child? 0).map
        THierarchyNode.healthy = some false ∧
    ((THierarchyNode.CleanErrorRecursive false
        (THierarchyNode.onChild 0 THierarchyNode.CleanError
          (THierarchyNode.SetErrorRecursive false THierarchyNode.exampleTree))).child? 0).map
        THierarchyNode.healthy = some true ∧
    (THierarchyNode.exampleTree.child? 1).map THierarchyNode.ownError = some true ∧
    ((THierarchyNode.CleanErrorRecursive false THierarchyNode.exampleTree).child? 1).map
        THierarchyNode.ownError = some true :=
  ⟨by decide,
    (error_inheritance THierarchyNode.exampleTree
      (THierarchyNode.mk "a" false false []) 0 (by rfl)).2.2.1,
    (error_inheritance THierarchyNode.exampleTree
      (THierarchyNode.mk "a" false false []) 0 (by rfl)).2.2.2.1,
    by decide,
    (error_inheritance THierarchyNode.exampleTree
      (THierarchyNode.mk "b" true false [THierarchyNode.mk "b1" false false []]) 1
      (by rfl)).2.2.2.2.1⟩

/-! The root of a hierarchy and the type checkers. -/

theorem GetRootOfParentHolder_of_top (objects : Addr → TChild) (it : Addr)
    (htop : isTopOfChain objects it) (fuel : Nat) :
    GetRootOfParentHolder objects fuel it = some it := by
  unfold isTopOfChain TChild.GetParent at htop
  unfold GetRootOfParentHolder
  rcases htop with h | h
  · rw [h]
  · rw [h]
    simp

theorem GetRootOfParentHolder_of_chain (objects : Addr → TChild) (n : Nat) :
    ∀ it root : Addr, GetParentTimes objects n it = some root →
      isTopOfChain objects root →
      (∀ k : Nat, k < n → ∀ a : Addr, GetParentTimes objects k it = some a →
        ¬ isTopOfChain objects a) →
      ∀ fuel : Nat, n ≤ fuel → GetRootOfParentHolder objects fuel it = some root := by
  induction n with
  | zero =>
    intro it root hroot htop _ fuel _
    simp only [GetParentTimes, Option.some.injEq] at hroot
    subst hroot
    exact GetRootOfParentHolder_of_top objects it htop fuel
  | succ n ih =>
    intro it root hroot htop hfirst fuel hfuel
    have hnot : ¬ isTopOfChain objects it := hfirst 0 (Nat.succ_pos n) it rfl
    unfold isTopOfChain TChild.GetParent at hnot
    simp only [GetParentTimes, TChild.GetParent] at hroot
    cases hp : (objects it).Parent with
    | none => exact absurd (Or.inl hp) hnot
    | some parent =>
      rw [hp] at hroot
      simp only at hroot
      have hne : parent ≠ it := by
        intro heq
        apply hnot
        right
        rw [hp, heq]
      cases fuel with
      | zero => omega
      | succ f =>
        unfold GetRootOfParentHolder
        rw [hp]
        simp only [hne, if_false]
        apply ih parent root hroot htop _ f (by omega)
        intro k hk a ha
        apply hfirst (k + 1) (by omega) a
        simp only [GetParentTimes, TChild.GetParent, hp]
        exact ha

/-- C22: in a degenerate hierarchy, when `n` applications of `GetParent` lead from the
argument to a node whose parent is null or is the node itself, and no node met before
is such a node, `GetRootOfParentHolder` returns that node as soon as the loop is
allowed `n` runs of its body; and a node whose parent is null or itself is returned at
once. -/
theorem GetRootOfParentHolder_degenerate (objects : Addr → TChild) (it root : Addr)
    (n : Nat) (hroot : GetParentTimes objects n it = some root)
    (htop : isTopOfChain objects root)
    (hfirst : ∀ k : Nat, k < n → ∀ a : Addr, GetParentTimes objects k it = some a →
      ¬ isTopOfChain objects a) :
    (∀ fuel : Nat, n ≤ fuel → GetRootOfParentHolder objects fuel it = some root) ∧
    (∀ fuel : Nat, GetRootOfParentHolder objects fuel root = some root) :=
  ⟨GetRootOfParentHolder_of_chain objects n it root hroot htop hfirst,
    GetRootOfParentHolder_of_top objects root htop⟩

/-- C22, at an example: from the node at address 3 three applications of `GetParent`
lead to the node at 0, which has no parent. -/
theorem GetRootOfParentHolder_degenerate_witness :
    GetParentTimes exampleChain 3 3 = some 0 ∧
    GetRootOfParentHolder exampleChain 3 3 = some 0 ∧
    GetRootOfParentHolder exampleChain 0 0 = some 0 :=
  have h := GetRootOfParentHolder_degenerate exampleChain 3 0 3 (by decide)
    (Or.inl (by decide))
    (by
      intro k hk a ha
      have hk3 : k = 0 ∨ k = 1 ∨ k = 2 := by omega
      rcases hk3 with rfl | rfl | rfl
      · simp only [GetParentTimes, Option.some.injEq] at ha
        subst ha
        unfold isTopOfChain
        decide
      · have h2 : GetParentTimes exampleChain 1 3 = some 2 := by decide
        rw [h2] at ha
        simp only [Option.some.injEq] at ha
        subst ha
        unfold isTopOfChain
        decide
      · have h1 : GetParentTimes exampleChain 2 3 = some 1 := by decide
        rw [h1] at ha
        simp only [Option.some.injEq] at ha
        subst ha
        unfold isTopOfChain
        decide)
  ⟨by decide, h.1 3 (Nat.le_refl 3), h.2 0⟩

theorem get_root_type_of_own_parent {α : Type} [DecidableEq α]
    (TArgNoChildOrParent : α) (TParentOf : α → Option α) (T : α) (fuel : Nat)
    (hT : TParentOf T = some T) :
    get_root_type TArgNoChildOrParent TParentOf fuel T = .type T := by
  unfold get_root_type
  rw [hT]
  by_cases hTN : T = TArgNoChildOrParent
  · subst hTN
    simp
  · simp [hTN]

theorem get_root_type_of_no_member {α : Type} [DecidableEq α]
    (TArgNoChildOrParent : α) (TParentOf : α → Option α) (T : α) (fuel : Nat)
    (hT : TParentOf T = none) :
    get_root_type TArgNoChildOrParent TParentOf fuel T = .illFormed := by
  unfold get_root_type
  rw [hT]

theorem get_root_type_of_step {α : Type} [DecidableEq α]
    (TArgNoChildOrParent : α) (TParentOf : α → Option α) (T TParent : α) (fuel : Nat)
    (hT : TParentOf T = some TParent) (hne : TParent ≠ T) :
    get_root_type TArgNoChildOrParent TParentOf (fuel + 1) T
      = match get_root_type TArgNoChildOrParent TParentOf fuel TParent with
        | .type root => if TArgNoChildOrParent = TParent then .type T else .type root
        | .illFormed => .illFormed
        | .depthReached => .depthReached := by
  rw [get_root_type]
  rw [hT]
  have h1 : ¬ (T = TArgNoChildOrParent ∧ TParent = TArgNoChildOrParent) := by
    rintro ⟨h1, h2⟩
    exact hne (h2.trans h1.symm)
  simp only [h1, hne, if_false]

/-- With the member typedef of the prototype kept in the comment of
hierarchy_member.hpp, where `TArgNoChildOrParent` names itself as parent,
`get_root_type` yields `TDriver` from each type of the standard chain as soon as the
depth allowed reaches the length of the chain. -/
theorem get_root_type_of_hierarchy {α : Type} [DecidableEq α]
    (TArgNoChildOrParent TDriver TDevice TControl : α) (TParentOf : α → Option α)
    (hControl : TParentOf TControl = some TDevice)
    (hDevice : TParentOf TDevice = some TDriver)
    (hDriver : TParentOf TDriver = some TArgNoChildOrParent)
    (hNone : TParentOf TArgNoChildOrParent = some TArgNoChildOrParent)
    (h1 : TDriver ≠ TArgNoChildOrParent) (h2 : TDevice ≠ TArgNoChildOrParent)
    (h3 : TDevice ≠ TDriver) (h4 : TControl ≠ TDevice) :
    (∀ fuel : Nat, 1 ≤ fuel →
      get_root_type TArgNoChildOrParent TParentOf fuel TDriver = .type TDriver) ∧
    (∀ fuel : Nat, 2 ≤ fuel →
      get_root_type TArgNoChildOrParent TParentOf fuel TDevice = .type TDriver) ∧
    (∀ fuel : Nat, 3 ≤ fuel →
      get_root_type TArgNoChildOrParent TParentOf fuel TControl = .type TDriver) := by
  have hdriver : ∀ fuel : Nat, 1 ≤ fuel →
      get_root_type TArgNoChildOrParent TParentOf fuel TDriver = .type TDriver := by
    intro fuel hf
    obtain ⟨f, rfl⟩ : ∃ f, fuel = f + 1 := ⟨fuel - 1, by omega⟩
    rw [get_root_type_of_step _ _ TDriver TArgNoChildOrParent f hDriver h1.symm,
      get_root_type_of_own_parent _ _ TArgNoChildOrParent f hNone]
    simp
  have hdevice : ∀ fuel : Nat, 2 ≤ fuel →
      get_root_type TArgNoChildOrParent TParentOf fuel TDevice = .type TDriver := by
    intro fuel hf
    obtain ⟨f, rfl⟩ : ∃ f, fuel = f + 1 := ⟨fuel - 1, by omega⟩
    rw [get_root_type_of_step _ _ TDevice TDriver f hDevice h3.symm,
      hdriver f (by omega)]
    simp [h1.symm]
  refine ⟨hdriver, hdevice, ?_⟩
  intro fuel hf
  obtain ⟨f, rfl⟩ : ∃ f, fuel = f + 1 := ⟨fuel - 1, by omega⟩
  rw [get_root_type_of_step _ _ TControl TDevice f hControl h4.symm,
    hdevice f (by omega)]
  simp [h2.symm]

/-- C23, on the types as src declares them: `TArgNoChildOrParent` has no member
`TParent`, so `get_root_type` names no type from `TDriver`, `TDevice` or `TControl`,
whatever depth is allowed: as soon as the chain is followed to its end the
instantiation is ill-formed. For the degenerate hierarchy it yields `TNode` at every
depth. With the member typedef of the prototype in the comment of hierarchy_member.hpp
it yields `TDriver` from each of the three, as the claim says. -/
theorem get_root_type_standard_chain_ill_formed :
    (∀ fuel : Nat,
      get_root_type HierarchyType.TArgNoChildOrParent HierarchyType.TParent (fuel + 1)
          HierarchyType.TDriver = .illFormed ∧
      get_root_type HierarchyType.TArgNoChildOrParent HierarchyType.TParent (fuel + 2)
          HierarchyType.TDevice = .illFormed ∧
      get_root_type HierarchyType.TArgNoChildOrParent HierarchyType.TParent (fuel + 3)
          HierarchyType.TControl = .illFormed) ∧
    (∀ (fuel : Nat) (root : HierarchyType),
      get_root_type HierarchyType.TArgNoChildOrParent HierarchyType.TParent fuel
          HierarchyType.TDriver ≠ .type root ∧
      get_root_type HierarchyType.TArgNoChildOrParent HierarchyType.TParent fuel
          HierarchyType.TDevice ≠ .type root ∧
      get_root_type HierarchyType.TArgNoChildOrParent HierarchyType.TParent fuel
          HierarchyType.TControl ≠ .type root) ∧
    (∀ fuel : Nat,
      get_root_type HierarchyType.TArgNoChildOrParent HierarchyType.TParent fuel
          HierarchyType.TNode = .type HierarchyType.TNode) ∧
    (∀ fuel : Nat,
      get_root_type HierarchyType.TArgNoChildOrParent HierarchyType.TParentOfPrototype
          (fuel + 1) HierarchyType.TDriver = .type HierarchyType.TDriver ∧
      get_root_type HierarchyType.TArgNoChildOrParent HierarchyType.TParentOfPrototype
          (fuel + 2) HierarchyType.TDevice = .type HierarchyType.TDriver ∧
      get_root_type HierarchyType.TArgNoChildOrParent HierarchyType.TParentOfPrototype
          (fuel + 3) HierarchyType.TControl = .type HierarchyType.TDriver) := by
  have hnone : ∀ fuel : Nat,
      get_root_type HierarchyType.TArgNoChildOrParent HierarchyType.TParent fuel
        HierarchyType.TArgNoChildOrParent = .illFormed :=
    fun fuel => get_root_type_of_no_member _ _ _ fuel rfl
  have hdriver : ∀ fuel : Nat,
      get_root_type HierarchyType.TArgNoChildOrParent HierarchyType.TParent (fuel + 1)
        HierarchyType.TDriver = .illFormed := by
    intro fuel
    rw [get_root_type_of_step _ _ HierarchyType.TDriver HierarchyType.TArgNoChildOrParent
      fuel rfl (by decide), hnone]
  have hdevice : ∀ fuel : Nat,
      get_root_type HierarchyType.TArgNoChildOrParent HierarchyType.TParent (fuel + 2)
        HierarchyType.TDevice = .illFormed := by
    intro fuel
    rw [get_root_type_of_step _ _ HierarchyType.TDevice HierarchyType.TDriver
      (fuel + 1) rfl (by decide), hdriver]
  have hcontrol : ∀ fuel : Nat,
      get_root_type HierarchyType.TArgNoChildOrParent HierarchyType.TParent (fuel + 3)
        HierarchyType.TControl = .illFormed := by
    intro fuel
    rw [get_root_type_of_step _ _ HierarchyType.TControl HierarchyType.TDevice
      (fuel + 2) rfl (by decide), hdevice]
  have hproto := get_root_type_of_hierarchy HierarchyType.TArgNoChildOrParent
    HierarchyType.TDriver HierarchyType.TDevice HierarchyType.TControl
    HierarchyType.TParentOfPrototype rfl rfl rfl rfl (by decide) (by decide) (by decide)
    (by decide)
  refine ⟨fun fuel => ⟨hdriver fuel, hdevice fuel, hcontrol fuel⟩, ?_,
    fun fuel => get_root_type_of_own_parent _ _ _ fuel rfl,
    fun fuel => ⟨hproto.1 _ (by omega), hproto.2.1 _ (by omega), hproto.2.2 _ (by omega)⟩⟩
  have hshort : ∀ (fuel : Nat) (T : HierarchyType),
      get_root_type HierarchyType.TArgNoChildOrParent HierarchyType.TParent fuel T
        = .depthReached →
      ∀ root : HierarchyType,
        get_root_type HierarchyType.TArgNoChildOrParent HierarchyType.TParent fuel T
          ≠ .type root := by
    intro fuel T h root
    rw [h]
    exact Instantiation.noConfusion
  have hill : ∀ (fuel : Nat) (T : HierarchyType),
      get_root_type HierarchyType.TArgNoChildOrParent HierarchyType.TParent fuel T
        = .illFormed →
      ∀ root : HierarchyType,
        get_root_type HierarchyType.TArgNoChildOrParent HierarchyType.TParent fuel T
          ≠ .type root := by
    intro fuel T h root
    rw [h]
    exact Instantiation.noConfusion
  intro fuel root
  refine ⟨?_, ?_, ?_⟩
  · cases fuel with
    | zero => exact hshort 0 _ (by decide) root
    | succ f => exact hill _ _ (hdriver f) root
  · cases fuel with
    | zero => exact hshort 0 _ (by decide) root
    | succ f =>
      cases f with
      | zero => exact hshort 1 _ (by decide) root
      | succ g => exact hill _ _ (hdevice g) root
  · cases fuel with
    | zero => exact hshort 0 _ (by decide) root
    | succ f =>
      cases f with
      | zero => exact hshort 1 _ (by decide) root
      | succ g =>
        cases g with
        | zero => exact hshort 2 _ (by decide) root
        | succ k => exact hill _ _ (hcontrol k) root

theorem is_one_of_iff_mem {α : Type} [DecidableEq α] (T1 : α) (TArgs : List α) :
    is_one_of T1 TArgs = true ↔ T1 ∈ TArgs := by
  induction TArgs with
  | nil => simp [is_one_of]
  | cons T2 rest ih =>
    by_cases h : T1 = T2
    · simp [is_one_of, h]
    · simp [is_one_of, h, ih]

/-- C24: `is_one_of<T, Ts...>` is true if and only if `T` occurs in `Ts`; it is false
for the empty list; and the six checks of `test_is_one_of` hold. -/
theorem is_one_of_iff_occurs :
    (∀ (α : Type) [DecidableEq α] (T : α) (Ts : List α),
      is_one_of T Ts = true ↔ T ∈ Ts) ∧
    (∀ (α : Type) [DecidableEq α] (T : α), is_one_of T [] = false) ∧
    (is_one_of CppType.int [] = false ∧
      is_one_of CppType.int [CppType.float] = false ∧
      is_one_of CppType.bool [CppType.int, CppType.double] = false ∧
      is_one_of CppType.int [CppType.int] = true ∧
      is_one_of CppType.int [CppType.double, CppType.int] = true ∧
      is_one_of CppType.int [CppType.double, CppType.int, CppType.double] = true) := by
  refine ⟨fun α _ T Ts => is_one_of_iff_mem T Ts, fun α _ T => rfl, ?_⟩
  decide

/-- C25: `all_different<Ts...>` is true if and only if no type occurs twice in `Ts`; it
is true for the empty and the one-element list; and the eight checks of
`test_all_different` hold. -/
theorem all_different_iff_nodup :
    (∀ (α : Type) [DecidableEq α] (Ts : List α), all_different Ts = true ↔ Ts.Nodup) ∧
    (∀ (α : Type) [DecidableEq α], all_different ([] : List α) = true) ∧
    (∀ (α : Type) [DecidableEq α] (T : α), all_different [T] = true) ∧
    (all_different ([] : List CppType) = true ∧
      all_different [CppType.int] = true ∧
      all_different [CppType.int, CppType.float] = true ∧
      all_different [CppType.bool, CppType.double, CppType.int] = true ∧
      all_different [CppType.int, CppType.int] = false ∧
      all_different [CppType.int, CppType.double, CppType.int] = false ∧
      all_different [CppType.int, CppType.int, CppType.float] = false ∧
      all_different [CppType.int, CppType.bool, CppType.int, CppType.char] = false) := by
  refine ⟨?_, fun α _ => rfl, fun α _ T => rfl, by decide⟩
  intro α _ Ts
  induction Ts with
  | nil => simp [all_different]
  | cons T rest ih =>
    by_cases h : T ∈ rest
    · have h1 : is_one_of T rest = true := (is_one_of_iff_mem T rest).mpr h
      simp [all_different, h1, h]
    · have h1 : is_one_of T rest = false := by
        cases hb : is_one_of T rest with
        | false => rfl
        | true => exact absurd ((is_one_of_iff_mem T rest).mp hb) h
      simp [all_different, h1, h, ih]

/-! Reading an integer with `sscanf`. -/

/-- C26: for the base `TControlType`, for `TRange` and for `TGeneric` there is one
sequence of (relative topic, value) pairs such that `PublishMetaInfo` calls the
publisher on these pairs in order and `DeleteMetaInfo` calls the deleter on their
topics in the same order, whatever the two callbacks do; recorded in lists, the topics
published are the topics deleted. -/
theorem DeleteMetaInfo_mirrors_PublishMetaInfo (self : TControlType) :
    (∃ calls : List (String × String),
      (∀ (σ : Type) (publisher : String → String → σ → σ) (w : σ),
        self.PublishMetaInfo publisher w
          = calls.foldl (fun acc call => publisher call.1 call.2 acc) w) ∧
      (∀ (σ : Type) (deleter : String → σ → σ) (w : σ),
        self.DeleteMetaInfo deleter w
          = (calls.map Prod.fst).foldl (fun acc topic => deleter topic acc) w)) ∧
    (self.PublishMetaInfo recordPublish []).map Prod.fst
      = self.DeleteMetaInfo recordDelete [] := by
  cases self with
  | base MetaType =>
    exact ⟨⟨[("/meta/type", MetaType)], fun _ _ _ => rfl, fun _ _ _ => rfl⟩, rfl⟩
  | TRange MetaType Maximum =>
    exact ⟨⟨[("/meta/type", MetaType), ("/meta/max", IntegerToString Maximum)],
      fun _ _ _ => rfl, fun _ _ _ => rfl⟩, rfl⟩
  | TGeneric MetaType Units =>
    exact ⟨⟨[("/meta/type", MetaType), ("/meta/units", Units)],
      fun _ _ _ => rfl, fun _ _ _ => rfl⟩, rfl⟩

/-- C29: the constructor of `TRange` throws `invalid_argument` if and only if
`maximum <= 1`; for every `maximum >= 2` it returns a `TRange` that stores that
maximum. -/
theorem TRange_construct_throws_iff (maximum : Int) :
    ((∃ what : String, TRange.construct maximum = .error what) ↔ maximum ≤ 1) ∧
    (maximum ≤ 1 → TRange.construct maximum = .error "maximum must be greater then 1") ∧
    (2 ≤ maximum → TRange.construct maximum = .ok { Maximum := maximum }) := by
  by_cases h : maximum ≤ 1
  · have hc : TRange.construct maximum = .error "maximum must be greater then 1" := by
      unfold TRange.construct
      rw [if_pos h]
    exact ⟨⟨fun _ => h, fun _ => ⟨_, hc⟩⟩, fun _ => hc, fun h2 => by omega⟩
  · have hc : TRange.construct maximum = .ok { Maximum := maximum } := by
      unfold TRange.construct
      rw [if_neg h]
    refine ⟨⟨?_, fun h1 => absurd h1 h⟩, fun h1 => absurd h1 h, fun _ => hc⟩
    rintro ⟨what, hw⟩
    rw [hc] at hw
    cases hw

/-- C29, at examples: the maxima 1 and 2. -/
theorem TRange_construct_throws_iff_witness :
    ((1 : Int) ≤ 1 ∧ TRange.construct 1 = .error "maximum must be greater then 1") ∧
    ((2 : Int) ≤ 2 ∧ TRange.construct 2 = .ok { Maximum := 2 }) :=
  ⟨⟨by decide, (TRange_construct_throws_iff 1).2.1 (by decide)⟩,
    ⟨by decide, (TRange_construct_throws_iff 2).2.2 (by decide)⟩⟩

/-! The colour type: three integers and the bit test. -/

/-- C31: for every message and every state, `TControlBase::TryDelegateMessageToChildren`
reports rejected and changes nothing; so the handling of a message that reaches a
control is the local application by the own hooks of the control, with their result,
under either reading of the dispatch protocol. -/
theorem TControlBase_never_delegates {σ : Type} (w : σ) (message : TMessage) :
    TControlBase.TryDelegateMessageToChildren w message = (w, false) ∧
    (TControlBase.TryDelegateMessageToChildren w message).2 = MESSAGE_REJECTED ∧
    (∀ (localAfterDelegated : Bool) (applyLocal : σ → TMessage → σ × Bool),
      ProcessMessageFromParent localAfterDelegated
          TControlBase.TryDelegateMessageToChildren applyLocal w message
        = applyLocal w message) := by
  refine ⟨rfl, rfl, ?_⟩
  intro flag applyLocal
  simp [ProcessMessageFromParent, TControlBase.TryDelegateMessageToChildren,
    MESSAGE_REJECTED]

theorem GetChildForce_of_GetChild_some (create : State → String → Outcome Addr)
    (s : State) (aliase : String) (c : Addr)
    (h : (s.holder.aliasesOfChildren.find aliase).bind Prod.snd = some c) :
    GetChildForce create s aliase = .returned s (some c) := by
  unfold GetChildForce
  rw [GetChild_eq, h]
  simp

theorem GetChildForce_of_GetChild_none (create : State → String → Outcome Addr)
    (s : State) (aliase : String)
    (h : (s.holder.aliasesOfChildren.find aliase).bind Prod.snd = none) :
    GetChildForce create s aliase =
      match create s aliase with
      | .thrown s2 what => .thrown s2 what
      | .returned s2 newChild =>
        match AddChild s2 newChild with
        | .thrown s3 what => .thrown s3 what
        | .returned s3 _ => .returned s3 (some newChild) := by
  unfold GetChildForce
  rw [GetChild_eq, h]
  simp

theorem GetChildForce_returned_cases (create : State → String → Outcome Addr)
    (s : State) (aliase : String)
    (hsucceeds : (GetChildForce create s aliase).isThrown = false) :
    (∃ c : Addr, (s.holder.aliasesOfChildren.find aliase).bind Prod.snd = some c ∧
      GetChildForce create s aliase = .returned s (some c)) ∨
    (∃ (s2 : State) (newChild : Addr),
      (s.holder.aliasesOfChildren.find aliase).bind Prod.snd = none ∧
      create s aliase = .returned s2 newChild ∧
      (s2.objects newChild).Name ∉ s2.holder.aliasesOfChildren.keys ∧
      GetChildForce create s aliase
        = .returned
            { this_ := s2.this_,
              holder :=
                { Children := s2.holder.Children ++ [newChild],
                  aliasesOfChildren :=
                    s2.holder.aliasesOfChildren.assign (s2.objects newChild).Name
                      (some newChild) },
              objects :=
                Function.update s2.objects newChild
                  ((s2.objects newChild).SetParent (some s2.this_)) }
            (some newChild)) := by
  cases hfind : (s.holder.aliasesOfChildren.find aliase).bind Prod.snd with
  | some c =>
    left
    exact ⟨c, rfl, GetChildForce_of_GetChild_some create s aliase c hfind⟩
  | none =>
    right
    have hstep := GetChildForce_of_GetChild_none create s aliase hfind
    cases hcreate : create s aliase with
    | thrown s2 what =>
      rw [hstep, hcreate] at hsucceeds
      simp [Outcome.isThrown] at hsucceeds
    | returned s2 newChild =>
      rw [hcreate] at hstep
      simp only at hstep
      by_cases hk : (s2.objects newChild).Name ∈ s2.holder.aliasesOfChildren.keys
      · rw [AddChild_of_key s2 newChild hk] at hstep
        rw [hstep] at hsucceeds
        simp [Outcome.isThrown] at hsucceeds
      · rw [AddChild_of_not_key s2 newChild hk] at hstep
        exact ⟨s2, newChild, rfl, rfl, hk, hstep⟩

/-- C32 as stated fails: on the empty holder, with an override that returns the child
at address 5, whose name is "bar", `GetChildForce("x")` succeeds and returns that child,
registered under "bar"; `GetChild("x")` is still `nullptr`, and a second
`GetChildForce("x")` calls the override again and ends in a throw with the child twice
in `Children`. -/
theorem GetChildForce_twice_counterexample :
    ¬ (∀ (create : State → String → Outcome Addr) (s : State) (aliase : String),
        (GetChildForce create s aliase).isThrown = false →
          (GetChild (GetChildForce create s aliase).state aliase).value?
              = (GetChildForce create s aliase).value? ∧
          (GetChildForce create (GetChildForce create s aliase).state aliase).value?
              = (GetChildForce create s aliase).value? ∧
          (GetChildForce create (GetChildForce create s aliase).state aliase).state.holder
              = (GetChildForce create s aliase).state.holder) := by
  intro h
  have hx := h createAt5 (freshState exampleNames) "x" (by decide)
  have hget : (GetChild (GetChildForce createAt5 (freshState exampleNames) "x").state
      "x").value? = some none := by decide
  have hforce : (GetChildForce createAt5 (freshState exampleNames) "x").value?
      = some (some 5) := by decide
  rw [hget, hforce] at hx
  exact absurd hx.1 (by decide)

/-- C32, amended: when `GetChildForce(alias)` succeeds, with an override of
`CreateChildByName` that gives the child it returns the name `alias`, its result is a
child, `GetChild(alias)` then returns that child, and a second `GetChildForce(alias)`
returns the same child and ends in the state it started from, whatever
`CreateChildByName` is then: nothing is created. -/
theorem GetChildForce_twice (create : State → String → Outcome Addr) (s : State)
    (aliase : String)
    (hsucceeds : (GetChildForce create s aliase).isThrown = false)
    (hname : ∀ (s2 : State) (newChild : Addr), create s aliase = .returned s2 newChild →
      (s2.objects newChild).Name = aliase) :
    (∃ c : Addr, (GetChildForce create s aliase).value? = some (some c)) ∧
    (GetChild (GetChildForce create s aliase).state aliase).value?
      = (GetChildForce create s aliase).value? ∧
    (∀ create2 : State → String → Outcome Addr,
      (GetChildForce create2 (GetChildForce create s aliase).state aliase).isThrown = false ∧
      (GetChildForce create2 (GetChildForce create s aliase).state aliase).value?
        = (GetChildForce create s aliase).value? ∧
      (GetChildForce create2 (GetChildForce create s aliase).state aliase).state
        = (GetChildForce create s aliase).state) := by
  rcases GetChildForce_returned_cases create s aliase hsucceeds with
    ⟨c, hfind, hforce⟩ | ⟨s2, newChild, _, hcreate, _, hforce⟩
  · rw [hforce]
    refine ⟨⟨c, rfl⟩, ?_, ?_⟩
    · simp only [Outcome.state, Outcome.value?, GetChild_eq, hfind]
    · intro create2
      simp only [Outcome.state]
      rw [GetChildForce_of_GetChild_some create2 s aliase c hfind]
      exact ⟨rfl, rfl, rfl⟩
  · have hn := hname s2 newChild hcreate
    rw [hforce, hn]
    have hfind2 :
        ((s2.holder.aliasesOfChildren.assign aliase (some newChild)).find aliase).bind
          Prod.snd = some newChild := by
      rw [unordered_map.find_assign_same]
      rfl
    refine ⟨⟨newChild, rfl⟩, ?_, ?_⟩
    · simp only [Outcome.state, Outcome.value?, GetChild_eq, hfind2]
    · intro create2
      simp only [Outcome.state]
      rw [GetChildForce_of_GetChild_some create2 _ aliase newChild hfind2]
      exact ⟨rfl, rfl, rfl⟩

/-- C32 amended, at an example: on the empty holder the override that returns the child
at address 5, named "bar", is asked for "bar"; the second call is given the default
`CreateChildByName`, which would throw if it were called. -/
theorem GetChildForce_twice_witness :
    (GetChildForce createAt5 (freshState exampleNames) "bar").isThrown = false ∧
    (GetChildForce createAt5 (freshState exampleNames) "bar").value? = some (some 5) ∧
    (GetChild (GetChildForce createAt5 (freshState exampleNames) "bar").state "bar").value?
      = (GetChildForce createAt5 (freshState exampleNames) "bar").value? ∧
    (GetChildForce CreateChildByName
        (GetChildForce createAt5 (freshState exampleNames) "bar").state "bar").isThrown
      = false ∧
    (GetChildForce CreateChildByName
        (GetChildForce createAt5 (freshState exampleNames) "bar").state "bar").value?
      = (GetChildForce createAt5 (freshState exampleNames) "bar").value? :=
  have h := GetChildForce_twice createAt5 (freshState exampleNames) "bar" (by decide)
    (by
      intro s2 newChild hcreate
      simp only [createAt5, Outcome.returned.injEq] at hcreate
      obtain ⟨hs, hc⟩ := hcreate
      subst hs hc
      decide)
  ⟨by decide, by decide, h.2.1, (h.2.2 CreateChildByName).1, (h.2.2 CreateChildByName).2.1⟩

end NWbMqtt
